import Mathlib

/-!
Verification of the session-signaling and process-supervision core of an
online watch-party application (one sending host, several receiving
viewers, chat, per-viewer stream relay processes).

The development shallowly embeds the relevant Python modules:

* `network/websocket_server.py`  (session coordinator): authentication,
  nickname collision resolution, SRT port allocation, chat fan-out,
  disconnect cleanup;
* `network/websocket_client.py`  (session client): the reconnect loop;
* `utils/process_manager.py`     (process supervisor): stop and
  auto-restart policy;
* `utils/network_utils.py`       (port allocator): `find_available_port`
  and `is_port_available`.

OS effects (socket binds, process launches, websocket sends) are
represented by oracles and by explicit action lists, so every definition
is executable and every concrete run can be evaluated.

The file is organized as definitions first, theorems second.
-/

namespace OnlineTheater

/-! # Definitions -/

/-! ## Decimal rendering

Python renders the collision counter with an f-string, i.e. with the
decimal representation of the integer.  The Lean embedding uses core
`Nat.repr`.  The library has no injectivity lemma for it, so we prove one
below (`natRepr_injective`); it backs both termination of the
suffix-search loop of `WebSocketServer._handle_auth` and distinctness of
suffixed nicknames. -/

/-- Numeric value of a decimal digit character ('0'..'9'). -/
def charToDigit (c : Char) : Nat := c.toNat - '0'.toNat

/-- Most-significant-digit-first value of a list of decimal digit
characters. -/
def digitsVal (l : List Char) : Nat :=
  l.foldl (fun a c => 10 * a + charToDigit c) 0

/-! ## Nickname collision resolution

Embedding of the nickname part of `WebSocketServer._handle_auth`
(`network/websocket_server.py` lines 182-190):

    if nickname in self.nicknames:
        original_nickname = nickname
        counter = 2
        while f"{original_nickname}_{counter}" in self.nicknames:
            counter += 1
        nickname = f"{original_nickname}_{counter}"

The in-use set `self.nicknames` is a Python set of strings, embedded as a
`Finset String`.  The unbounded `while` loop is embedded with fuel;
`findSuffix_total` shows that fuel `used.card + 1` never runs out, so the
fallback branch of `resolveNickname` is unreachable. -/

/-- Embedding of the Python f-string `f"{original_nickname}_{counter}"`. -/
def withSuffix (base : String) (k : Nat) : String :=
  base ++ "_" ++ Nat.repr k

/-- The `while` loop: starting at candidate counter `k`, return the first
counter whose suffixed nickname is not in use, or `none` if the fuel runs
out. -/
def findSuffix (used : Finset String) (base : String) : Nat → Nat → Option Nat
  | 0, _ => none
  | fuel + 1, k =>
    if withSuffix base k ∈ used then findSuffix used base fuel (k + 1)
    else some k

/-- Nickname assignment of `_handle_auth`: keep the requested nickname if
it is unused, otherwise take the first unused `base_k` with `k` counting
up from 2.  The `none` fallback is unreachable (`findSuffix_total`). -/
def resolveNickname (used : Finset String) (req : String) : String :=
  if req ∈ used then
    match findSuffix used req (used.card + 1) 2 with
    | some k => withSuffix req k
    | none => req
  else req

/-! ## Port allocator (`utils/network_utils.py`)

The OS-level bind+listen probe is an oracle `bindOk : AddrFamily → Nat →
Bool`.  `is_port_available` loops over `[AF_INET, AF_INET6]` and returns
`False` as soon as one family fails; `find_available_port` probes
`start_port + i` for `i in range(max_attempts)` in ascending order.  The
Python default `max_attempts = 100` is passed explicitly by callers in
this embedding. -/

inductive AddrFamily where
  | afInet
  | afInet6
deriving DecidableEq

/-- Embedding of `NetworkUtils.is_port_available`: a port is available iff
the test bind+listen succeeds for every family in `[AF_INET, AF_INET6]`. -/
def is_port_available (bindOk : AddrFamily → Nat → Bool) (port : Nat) : Bool :=
  [AddrFamily.afInet, AddrFamily.afInet6].all (fun fam => bindOk fam port)

/-- Loop body of `NetworkUtils.find_available_port`, recursing on the
remaining attempt budget. -/
def findAvailablePortAux (bindOk : AddrFamily → Nat → Bool) : Nat → Nat → Option Nat
  | _, 0 => none
  | port, attempts + 1 =>
    if is_port_available bindOk port then some port
    else findAvailablePortAux bindOk (port + 1) attempts

/-- Embedding of `NetworkUtils.find_available_port`. -/
def find_available_port (bindOk : AddrFamily → Nat → Bool)
    (startPort maxAttempts : Nat) : Option Nat :=
  findAvailablePortAux bindOk startPort maxAttempts

/-! ## Session coordinator state (`network/websocket_server.py`)

`ServerState` embeds the mutable fields of `WebSocketServer` that the
protocol touches: the verification code, the sender's own nickname, the
bind address, the in-use nickname set, the `client_id -> client_info`
dictionary (an association list in dictionary insertion order) and the
rolling SRT port cursor `next_srt_port`.  Transport handles, event loop
and thread fields carry no protocol state and are not modelled.

Outbound effects (websocket sends and closes, relay process starts and
stops, UI callbacks) are returned as an explicit `Action` list. -/

inductive Role where
  | sender
  | receiver
deriving DecidableEq

/-- Per-connection record (`client_info` built in `handle_client`; the
`websocket` handle, connect timestamp and remote address are not part of
the protocol state). -/
structure ClientInfo where
  authenticated : Bool
  nickname : Option String
  srtPort : Option Nat
deriving DecidableEq

/-- The `client_info` dictionary created for a fresh connection
(`handle_client` lines 116-123). -/
def newClientInfo : ClientInfo :=
  { authenticated := false, nickname := none, srtPort := none }

structure ServerState where
  verificationCode : String
  senderNickname : Option String
  bindIp : String
  nicknames : Finset String
  clients : List (String × ClientInfo)
  nextSrtPort : Nat
deriving DecidableEq

/-- Coordinator state right after `start(host, port, sender_nickname)`:
the sender's nickname is placed in the in-use set (line 56) and the SRT
cursor sits at the configured base port (10000 in `config.py`). -/
def initServerState (code sender ip : String) (srtBasePort : Nat) : ServerState :=
  { verificationCode := code
    senderNickname := some sender
    bindIp := ip
    nicknames := {sender}
    clients := []
    nextSrtPort := srtBasePort }

/-- Wire messages sent by the coordinator (`config.WS_MESSAGE_TYPES`). -/
inductive WsMsg where
  | authFailed (message : String)
  | authSuccess (nickname : String) (srtPort : Nat) (serverIp : String)
  | errorMsg (message : String)
  | chat (nickname : Option String) (message : String) (timestamp : String)
  | joinMsg (nickname : String) (message : String)
  | leaveMsg (nickname : String) (message : String)
  | membersMsg (members : List (String × Role))
  | heartbeat
deriving DecidableEq

inductive Action where
  | sendTo (clientId : String) (msg : WsMsg)
  | close (clientId : String)
  | tryStartRelay (processName : String) (srtPort : Nat) (ok : Bool)
  | stopRelay (processName : String)
  | notifyMessage (nickname : Option String) (message : String)
  | notifyMembers (members : List (String × Role))
deriving DecidableEq

/-- Python truthiness of an optional string (`if nickname:`): `None` and
the empty string are falsy. -/
def truthyStr : Option String → Bool
  | some s => s ≠ ""
  | none => false

/-- Python truthiness of an optional int (`if srt_port:`): `None` and `0`
are falsy. -/
def truthyNat : Option Nat → Bool
  | some n => n ≠ 0
  | none => false

/-- Python rendering of an optional string inside an f-string (`None`
renders as the text "None"). -/
def pyStr : Option String → String
  | some s => s
  | none => "None"

/-- Dictionary lookup `self.clients[client_id]` / `client_id in self.clients`. -/
def lookupClient : List (String × ClientInfo) → String → Option ClientInfo
  | [], _ => none
  | (k, v) :: rest, cid => if k = cid then some v else lookupClient rest cid

/-- Dictionary assignment `self.clients[client_id] = client_info`:
replaces in place, or appends in insertion order. -/
def insertClient : List (String × ClientInfo) → String → ClientInfo →
    List (String × ClientInfo)
  | [], cid, ci => [(cid, ci)]
  | (k, v) :: rest, cid, ci =>
    if k = cid then (cid, ci) :: rest else (k, v) :: insertClient rest cid ci

/-- Dictionary deletion `del self.clients[client_id]`. -/
def removeClient : List (String × ClientInfo) → String → List (String × ClientInfo)
  | [], _ => []
  | (k, v) :: rest, cid =>
    if k = cid then rest else (k, v) :: removeClient rest cid

/-- Member roster of `get_online_members`: the sender (when its nickname
is truthy) followed by every authenticated client with a truthy nickname,
tagged with its role. -/
def getOnlineMembers (s : ServerState) : List (String × Role) :=
  (if truthyStr s.senderNickname then [(pyStr s.senderNickname, Role.sender)] else [])
  ++ s.clients.filterMap (fun ic =>
      if ic.2.authenticated && truthyStr ic.2.nickname then
        some (pyStr ic.2.nickname, Role.receiver)
      else none)

/-- Recipients of `_broadcast_message`: every client whose record is
authenticated, in table order. -/
def broadcastTargets (s : ServerState) : List String :=
  s.clients.filterMap (fun ic => if ic.2.authenticated then some ic.1 else none)

/-- `_broadcast_message` as a list of independent per-recipient sends
(the source gathers one send task per authenticated client and runs them
with `return_exceptions=True`). -/
def broadcastSends (s : ServerState) (m : WsMsg) : List Action :=
  (broadcastTargets s).map (fun cid => Action.sendTo cid m)

/-- `_notify_member_update`: broadcast the roster, then invoke the
member-update callback. -/
def notifyMemberUpdate (s : ServerState) : List Action :=
  broadcastSends s (WsMsg.membersMsg (getOnlineMembers s))
  ++ [Action.notifyMembers (getOnlineMembers s)]

/-- Relay process name `f"client_{nickname}_{srt_port}"`. -/
def relayName (nickname : String) (srtPort : Nat) : String :=
  "client_" ++ nickname ++ "_" ++ Nat.repr srtPort

/-- Embedding of `WebSocketServer._allocate_srt_port`: probe from the
rolling cursor with the default budget of 100; the cursor is advanced
under Python truthiness (`if port:`), so it stays put when the probe
returns `None` — or the falsy port 0.  The port is returned either
way. -/
def allocate_srt_port (bindOk : AddrFamily → Nat → Bool) (s : ServerState) :
    Option Nat × ServerState :=
  match find_available_port bindOk s.nextSrtPort 100 with
  | some port =>
    if port ≠ 0 then (some port, { s with nextSrtPort := port + 1 })
    else (some port, s)
  | none => (none, s)

/-- Result of handling one inbound message: the new coordinator state,
the connection's updated `client_info`, and the outbound effects in
program order. -/
structure StepResult where
  state : ServerState
  client : ClientInfo
  actions : List Action
deriving DecidableEq

/-- Embedding of `WebSocketServer._handle_auth`.  `bindOk` is the OS bind
probe used by the port allocator and `ffmpegOk` tells whether
`ffmpeg_manager.start_rtmp_to_srt` succeeds for a given process name and
port.  Branches, state commits and the order of outbound effects follow
the source (lines 167-243). -/
def handle_auth (bindOk : AddrFamily → Nat → Bool) (ffmpegOk : String → Nat → Bool)
    (s : ServerState) (clientId : String) (ci : ClientInfo)
    (code nickname : String) : StepResult :=
  if code ≠ s.verificationCode then
    { state := s, client := ci
      actions := [Action.sendTo clientId (WsMsg.authFailed "验证码错误"),
                  Action.close clientId] }
  else
    let nicknameA := resolveNickname s.nicknames nickname
    match allocate_srt_port bindOk s with
    | (none, s1) =>
      { state := s1, client := ci
        actions := [Action.sendTo clientId (WsMsg.errorMsg "无法分配SRT端口"),
                    Action.close clientId] }
    | (some srtPort, s1) =>
      if ffmpegOk (relayName nicknameA srtPort) srtPort then
        let ci1 : ClientInfo :=
          { authenticated := true, nickname := some nicknameA, srtPort := some srtPort }
        let s2 : ServerState :=
          { s1 with clients := insertClient s1.clients clientId ci1
                    nicknames := insert nicknameA s1.nicknames }
        { state := s2, client := ci1
          actions :=
            [Action.tryStartRelay (relayName nicknameA srtPort) srtPort true,
             Action.sendTo clientId (WsMsg.authSuccess nicknameA srtPort s.bindIp)]
            ++ broadcastSends s2 (WsMsg.joinMsg nicknameA (nicknameA ++ " 加入了放映室"))
            ++ [Action.sendTo clientId (WsMsg.membersMsg (getOnlineMembers s2))]
            ++ notifyMemberUpdate s2 }
      else
        { state := s1, client := ci
          actions := [Action.tryStartRelay (relayName nicknameA srtPort) srtPort false,
                      Action.sendTo clientId (WsMsg.errorMsg "无法启动流转发服务"),
                      Action.close clientId] }

/-- Embedding of `WebSocketServer._handle_chat`: drop the message if the
sender is not in the client table, otherwise broadcast it with the
sender's stored nickname and the server timestamp, then fire the message
callback. -/
def handle_chat (now : String) (s : ServerState) (clientId : String)
    (message : String) : List Action :=
  match lookupClient s.clients clientId with
  | none => []
  | some ci =>
    broadcastSends s (WsMsg.chat ci.nickname message now)
    ++ [Action.notifyMessage ci.nickname message]

/-- Embedding of `WebSocketServer._cleanup_client` (lines 295-326):
no-op for an untracked id; otherwise stop the relay (for a truthy port),
remove the record, release a truthy nickname, broadcast a leave message
and publish the updated roster. -/
def cleanup_client (s : ServerState) (clientId : String) :
    ServerState × List Action :=
  match lookupClient s.clients clientId with
  | none => (s, [])
  | some ci =>
    let stopActs : List Action :=
      match ci.srtPort with
      | some port =>
        if port ≠ 0 then [Action.stopRelay (relayName (pyStr ci.nickname) port)]
        else []
      | none => []
    let s1 : ServerState :=
      { s with clients := removeClient s.clients clientId
               nicknames :=
                 if truthyStr ci.nickname then s.nicknames.erase (pyStr ci.nickname)
                 else s.nicknames }
    let leaveActs : List Action :=
      if truthyStr ci.nickname then
        broadcastSends s1 (WsMsg.leaveMsg (pyStr ci.nickname)
          (pyStr ci.nickname ++ " 离开了放映室"))
      else []
    (s1, stopActs ++ leaveActs ++ notifyMemberUpdate s1)

/-- Inbound messages, one constructor per recognized `type` value; a
message whose `type` string matches none of the recognized ones is
`other`. -/
inductive InMsg where
  | auth (code nickname : String)
  | chat (message : String)
  | heartbeat
  | other (msgType : String)
deriving DecidableEq

/-- The `type` field carried by an inbound message. -/
def msgType : InMsg → String
  | .auth _ _ => "auth"
  | .chat _ => "chat"
  | .heartbeat => "heartbeat"
  | .other t => t

/-- Message dispatch of `WebSocketServer.handle_client` (lines 131-155):
before authentication only `auth` is processed and everything else gets
an authentication-required error with the connection left open; after
authentication, `chat` is fanned out, `heartbeat` is echoed and unknown
types are only logged. -/
def handle_message (bindOk : AddrFamily → Nat → Bool) (ffmpegOk : String → Nat → Bool)
    (now : String) (s : ServerState) (clientId : String) (ci : ClientInfo)
    (m : InMsg) : StepResult :=
  if ci.authenticated = false then
    match m with
    | .auth code nickname => handle_auth bindOk ffmpegOk s clientId ci code nickname
    | _ =>
      { state := s, client := ci
        actions := [Action.sendTo clientId (WsMsg.errorMsg "请先进行身份验证")] }
  else
    match m with
    | .chat message => { state := s, client := ci, actions := handle_chat now s clientId message }
    | .heartbeat => { state := s, client := ci, actions := [Action.sendTo clientId WsMsg.heartbeat] }
    | _ => { state := s, client := ci, actions := [] }

/-! ## Runs of join requests

Machinery for reasoning about whole sessions: `runJoins` folds a list of
auth requests `(client_id, code, nickname)` through `handle_auth`, each on
a fresh `client_info` (each request is the first message of a new
connection), collecting per-request action lists; `joinStates` lists the
coordinator state seen by each request. -/

def runJoins (bindOk : AddrFamily → Nat → Bool) (ffmpegOk : String → Nat → Bool)
    (s : ServerState) : List (String × String × String) → ServerState × List (List Action)
  | [] => (s, [])
  | (cid, code, nick) :: rest =>
    let r := handle_auth bindOk ffmpegOk s cid newClientInfo code nick
    let rr := runJoins bindOk ffmpegOk r.state rest
    (rr.1, r.actions :: rr.2)

def joinStates (bindOk : AddrFamily → Nat → Bool) (ffmpegOk : String → Nat → Bool)
    (s : ServerState) : List (String × String × String) → List ServerState
  | [] => []
  | (cid, code, nick) :: rest =>
    s :: joinStates bindOk ffmpegOk
      (handle_auth bindOk ffmpegOk s cid newClientInfo code nick).state rest

/-- The `(nickname, srt_port)` reported in the first `auth_success`
message addressed to `cid`, if any. -/
def replyAuthSuccess (acts : List Action) (cid : String) : Option (String × Nat) :=
  acts.findSome? (fun a =>
    match a with
    | Action.sendTo c (WsMsg.authSuccess n p _) => if c = cid then some (n, p) else none
    | _ => none)

/-- Join requests all carrying the same verification code. -/
def joinReqs (code : String) (reqs : List (String × String)) :
    List (String × String × String) :=
  reqs.map (fun r => (r.1, code, r.2))

/-! ## Reachable coordinator states

State-changing transitions of the coordinator: a processed auth request
(`_handle_auth`) and a disconnect cleanup (`_cleanup_client`).  Chat,
heartbeat, unknown-type and pre-authentication messages leave the state
unchanged (`handle_message` returns `s` itself on those paths), so they
need no constructor.  The freshness side condition on auth steps reflects
the runtime facts that `client_id` is unique per live connection and that
`handle_client` dispatches `auth` only while the connection's own
`client_info` is unauthenticated, so an id present in `self.clients`
never reaches `_handle_auth` again. -/

inductive Reachable (bindOk : AddrFamily → Nat → Bool)
    (ffmpegOk : String → Nat → Bool) : ServerState → ServerState → Prop where
  | refl (s : ServerState) : Reachable bindOk ffmpegOk s s
  | authStep {s t : ServerState} (cid : String) (ci : ClientInfo) (code nick : String)
      (h : Reachable bindOk ffmpegOk s t)
      (hfresh : lookupClient t.clients cid = none) :
      Reachable bindOk ffmpegOk s (handle_auth bindOk ffmpegOk t cid ci code nick).state
  | disconnectStep {s t : ServerState} (cid : String)
      (h : Reachable bindOk ffmpegOk s t) :
      Reachable bindOk ffmpegOk s (cleanup_client t cid).1

/-- Every tracked stream port lies strictly below the allocation cursor. -/
def PortsBounded (s : ServerState) : Prop :=
  ∀ e ∈ s.clients, ∀ p, e.2.srtPort = some p → p < s.nextSrtPort

/-- No two distinct client records hold the same stream port. -/
def PortsDistinct (s : ServerState) : Prop :=
  s.clients.Pairwise (fun a b => ∀ p q, a.2.srtPort = some p → b.2.srtPort = some q → p ≠ q)

/-! ## Fan-out counting helpers -/

/-- Number of messages addressed to `cid` in an action list. -/
def sendCount (acts : List Action) (cid : String) : Nat :=
  acts.countP (fun a =>
    match a with
    | Action.sendTo c _ => c == cid
    | _ => false)

/-- Number of messages actually delivered to `cid` when the transport
send to each recipient succeeds or fails independently according to
`sendOk` (`_send_raw_message` catches and logs per-recipient failures;
`asyncio.gather(..., return_exceptions=True)` isolates them). -/
def deliveredCount (sendOk : String → Bool) (acts : List Action) (cid : String) : Nat :=
  acts.countP (fun a =>
    match a with
    | Action.sendTo c _ => (c == cid) && sendOk c
    | _ => false)

/-! ## Session client reconnect loop (`network/websocket_client.py`)

The mutually recursive pair `connect` / `_try_reconnect` is embedded as
one fuel-indexed function with a mode flag.  `outcome i` tells whether the
i-th call to `websockets.connect` succeeds.  Only the connection
establishment part is modelled: on success the attempt counter is reset
(line 85) and the loop stops (the receive loop takes over); on failure the
error callback fires with a connection-failed message (line 113) and
`_try_reconnect` runs under the guard of line 116.  `_try_reconnect`
(lines 370-400) increments the counter, emits the dedicated terminal
error (line 382) when the counter exceeds the maximum, and otherwise
waits and calls `connect` again.  The running/auto-reconnect flags are
held constant during the episode (nothing in this path mutates them). -/

structure WClientState where
  running : Bool
  autoReconnect : Bool
  reconnectAttempts : Nat
  maxReconnectAttempts : Nat
deriving DecidableEq

inductive WEvent where
  | connectAttempt (idx : Nat)
  | connectFailed (idx : Nat)
  | connectedOk (idx : Nat)
  | terminalError
deriving DecidableEq

inductive CMode where
  | connectM
  | reconnectM
deriving DecidableEq

def clientLoop (outcome : Nat → Bool) :
    Nat → CMode → WClientState → Nat → WClientState × List WEvent
  | 0, _, st, _ => (st, [])
  | fuel + 1, CMode.connectM, st, idx =>
    if outcome idx then
      ({ st with reconnectAttempts := 0 },
       [WEvent.connectAttempt idx, WEvent.connectedOk idx])
    else
      let evs := [WEvent.connectAttempt idx, WEvent.connectFailed idx]
      if st.autoReconnect = true ∧ st.reconnectAttempts < st.maxReconnectAttempts
          ∧ st.running = true then
        let r := clientLoop outcome fuel CMode.reconnectM st idx
        (r.1, evs ++ r.2)
      else (st, evs)
  | fuel + 1, CMode.reconnectM, st, idx =>
    if st.autoReconnect = false ∨ st.running = false then (st, [])
    else
      let st1 := { st with reconnectAttempts := st.reconnectAttempts + 1 }
      if st1.maxReconnectAttempts < st1.reconnectAttempts then
        (st1, [WEvent.terminalError])
      else clientLoop outcome fuel CMode.connectM st1 (idx + 1)

/-- Number of `websockets.connect` calls in an event trace. -/
def countConnects (evs : List WEvent) : Nat :=
  evs.countP (fun e =>
    match e with
    | WEvent.connectAttempt _ => true
    | _ => false)

/-- Number of per-attempt connection-failure error callbacks in an event
trace. -/
def countFailures (evs : List WEvent) : Nat :=
  evs.countP (fun e =>
    match e with
    | WEvent.connectFailed _ => true
    | _ => false)

/-! ## Process supervisor (`utils/process_manager.py`)

`start_process` picks the monitoring mode (lines 76-92): with output
callbacks a full output monitor is spawned; without callbacks but with
`restart_on_exit` an exit-only monitor is spawned; otherwise nothing
watches the process.  The restart decisions at process exit are embedded
as pure functions of the exit code and of the shutdown flag as sampled at
the two checks surrounding the back-off sleep. -/

inductive MonitorKind where
  | output
  | exitOnly
  | noMonitor
deriving DecidableEq

def monitorKind (hasStdoutCb hasStderrCb restartOnExit : Bool) : MonitorKind :=
  if hasStdoutCb || hasStderrCb then MonitorKind.output
  else if restartOnExit then MonitorKind.exitOnly
  else MonitorKind.noMonitor

/-- Restart decision of `_monitor_process_output` (lines 154-163): the
exit code is logged but not consulted; restart happens for any exit code
when `restart_on_exit` is set and shutdown has not been signalled at
either check. -/
def monitorOutputRestart (restartOnExit : Bool) (exitCode : Int)
    (shutdownAtExit shutdownAfterSleep : Bool) : Bool :=
  restartOnExit && !shutdownAtExit && !shutdownAfterSleep

/-- Restart decision of `_monitor_process_exit` (lines 186-195): the
restart block sits inside `if exit_code != 0`, so a clean exit is never
restarted on this path. -/
def monitorExitRestart (exitCode : Int) (shutdownAtExit shutdownAfterSleep : Bool) : Bool :=
  exitCode != 0 && (!shutdownAtExit && !shutdownAfterSleep)

/-- Arguments of one `start_process` call (the env mapping is opaque and
omitted; callbacks are tracked by presence). -/
structure StartCall where
  name : String
  command : List String
  cwd : Option String
  hasStdoutCb : Bool
  hasStderrCb : Bool
  restartOnExit : Bool
deriving DecidableEq

/-- The `start_process` call issued by the monitor of `c` when the
process exits with `exitCode`, or `none` when no relaunch happens.  The
output monitor relaunches with the identical argument list (lines
159-163); the exit-only monitor relaunches with
`(name, command, cwd, env, None, None, True)` (line 195). -/
def relaunchCall (c : StartCall) (exitCode : Int)
    (shutdownAtExit shutdownAfterSleep : Bool) : Option StartCall :=
  match monitorKind c.hasStdoutCb c.hasStderrCb c.restartOnExit with
  | MonitorKind.output =>
    if monitorOutputRestart c.restartOnExit exitCode shutdownAtExit shutdownAfterSleep
    then some c else none
  | MonitorKind.exitOnly =>
    if monitorExitRestart exitCode shutdownAtExit shutdownAfterSleep
    then some { c with hasStdoutCb := false, hasStderrCb := false, restartOnExit := true }
    else none
  | MonitorKind.noMonitor => none

/-! ## Stopping a process (`ProcessManager.stop_process`, lines 211-251)

The process's reaction is an outcome parameter: it either exits within
the graceful-wait timeout or has to be force-killed (a SIGKILL/kill on a
live child process terminates it, so the post-kill wait returns).  On
Windows the graceful signal is CTRL_BREAK_EVENT, elsewhere `terminate`. -/

inductive StopOutcome where
  | gracefulExit
  | killedAfterTimeout
deriving DecidableEq

inductive ProcSignal where
  | terminateSig
  | ctrlBreakSig
  | killSig
deriving DecidableEq

/-- The supervisor's tracking state: tracked process names and monitor
thread names (`self._processes`, `self._threads`). -/
structure PMState where
  processes : List String
  threads : List String
deriving DecidableEq

/-- Embedding of `ProcessManager.stop_process`: returns the success flag,
the new tracking state and the signals sent.  `timeout` bounds the
graceful wait; the model keeps it for signature fidelity, the outcome
parameter already says whether the wait expired. -/
def stop_process (isWindows : Bool) (st : PMState) (name : String) (timeout : Nat)
    (outcome : StopOutcome) : Bool × PMState × List ProcSignal :=
  if name ∈ st.processes then
    let graceful := if isWindows then [ProcSignal.ctrlBreakSig] else [ProcSignal.terminateSig]
    let signals :=
      match outcome with
      | StopOutcome.gracefulExit => graceful
      | StopOutcome.killedAfterTimeout => graceful ++ [ProcSignal.killSig]
    (true, { processes := st.processes.erase name, threads := st.threads.erase name },
     signals)
  else (false, st, [])

/-- A concrete bind oracle for witness runs: IPv4 binding fails at port
10001, IPv6 binding fails at port 10000, everything else succeeds. -/
def witnessBindOk : AddrFamily → Nat → Bool := fun fam p =>
  match fam with
  | AddrFamily.afInet => p != 10001
  | AddrFamily.afInet6 => p != 10000

/-! # Theorems -/

/-! ## Decimal rendering -/

theorem charToDigit_digitChar {d : Nat} (h : d < 10) :
    charToDigit (Nat.digitChar d) = d := by
  interval_cases d <;> rfl

theorem toDigitsCore_append (fuel : Nat) :
    ∀ (n : Nat) (l : List Char),
      Nat.toDigitsCore 10 fuel n l = Nat.toDigitsCore 10 fuel n [] ++ l := by
  induction fuel with
  | zero => intro n l; simp [Nat.toDigitsCore]
  | succ fuel ih =>
    intro n l
    simp only [Nat.toDigitsCore]
    by_cases h : n / 10 = 0
    · simp [h]
    · simp only [h, if_false]
      rw [ih (n / 10) (Nat.digitChar (n % 10) :: l),
        ih (n / 10) [Nat.digitChar (n % 10)], List.append_assoc]
      rfl

theorem toDigitsCore_fuel (n : Nat) :
    ∀ (f₁ f₂ : Nat) (l : List Char), n < f₁ → n < f₂ →
      Nat.toDigitsCore 10 f₁ n l = Nat.toDigitsCore 10 f₂ n l := by
  induction n using Nat.strong_induction_on with
  | _ n ih =>
    intro f₁ f₂ l h₁ h₂
    match f₁, f₂ with
    | g₁ + 1, g₂ + 1 =>
      simp only [Nat.toDigitsCore]
      by_cases h : n / 10 = 0
      · simp [h]
      · simp only [h, if_false]
        have hn : 0 < n := by
          rcases Nat.eq_zero_or_pos n with h0 | h0
          · exact absurd (by simp [h0]) h
          · exact h0
        have hlt : n / 10 < n := Nat.div_lt_self hn (by norm_num)
        exact ih (n / 10) hlt g₁ g₂ _
          (lt_of_lt_of_le hlt (Nat.lt_succ_iff.mp h₁))
          (lt_of_lt_of_le hlt (Nat.lt_succ_iff.mp h₂))

theorem digitsVal_append_singleton (l : List Char) (c : Char) :
    digitsVal (l ++ [c]) = 10 * digitsVal l + charToDigit c := by
  simp [digitsVal, List.foldl_append]

theorem digitsVal_toDigits (n : Nat) :
    digitsVal (Nat.toDigits 10 n) = n := by
  induction n using Nat.strong_induction_on with
  | _ n ih =>
    simp only [Nat.toDigits, Nat.toDigitsCore]
    by_cases h : n / 10 = 0
    · have hn : n < 10 := by omega
      simp only [h, if_true, reduceIte, digitsVal, List.foldl, Nat.mod_eq_of_lt hn]
      simpa [digitsVal] using charToDigit_digitChar hn
    · simp only [h, if_false]
      have hn : 0 < n := by
        rcases Nat.eq_zero_or_pos n with h0 | h0
        · exact absurd (by simp [h0]) h
        · exact h0
      have hlt : n / 10 < n := Nat.div_lt_self hn (by norm_num)
      rw [toDigitsCore_append, toDigitsCore_fuel (n / 10) n (n / 10 + 1) []
        hlt (Nat.lt_succ_self _)]
      have hd : Nat.toDigitsCore 10 (n / 10 + 1) (n / 10) [] = Nat.toDigits 10 (n / 10) := rfl
      rw [hd, digitsVal_append_singleton, ih (n / 10) hlt,
        charToDigit_digitChar (Nat.mod_lt n (by norm_num))]
      exact Nat.div_add_mod n 10

theorem natRepr_injective : Function.Injective Nat.repr := by
  intro m n h
  have hdata : (Nat.toDigits 10 m) = (Nat.toDigits 10 n) := by
    have := congrArg String.data h
    simpa [Nat.repr, List.asString] using this
  have := congrArg digitsVal hdata
  rwa [digitsVal_toDigits, digitsVal_toDigits] at this

/-! ## Nickname collision resolution -/

theorem withSuffix_injective (base : String) :
    Function.Injective (withSuffix base) := by
  intro j k h
  apply natRepr_injective
  have hdata := congrArg String.data h
  simp only [withSuffix, String.data_append] at hdata
  have := List.append_cancel_left hdata
  exact String.ext this

theorem findSuffix_none_mem (used : Finset String) (base : String) :
    ∀ (fuel k : Nat), findSuffix used base fuel k = none →
      ∀ i < fuel, withSuffix base (k + i) ∈ used := by
  intro fuel
  induction fuel with
  | zero => intro k _ i hi; omega
  | succ fuel ih =>
    intro k hnone i hi
    simp only [findSuffix] at hnone
    by_cases hmem : withSuffix base k ∈ used
    · simp only [hmem, if_true, reduceIte] at hnone
      match i with
      | 0 => simpa using hmem
      | i + 1 =>
        have := ih (k + 1) hnone i (by omega)
        simpa [Nat.add_assoc, Nat.add_comm 1 i] using this
    · simp [hmem] at hnone

/-- With fuel `used.card + 1` the loop always finds an unused suffix: the
candidates are pairwise distinct, so they cannot all be in `used`. -/
theorem findSuffix_total (used : Finset String) (base : String) (k : Nat) :
    (findSuffix used base (used.card + 1) k).isSome := by
  cases hfind : findSuffix used base (used.card + 1) k with
  | some j => rfl
  | none =>
    exfalso
    have hmem := findSuffix_none_mem used base (used.card + 1) k hfind
    have hcard : (Finset.range (used.card + 1)).card ≤ used.card := by
      apply Finset.card_le_card_of_injOn (fun i => withSuffix base (k + i))
      · intro i hi
        exact hmem i (Finset.mem_range.mp hi)
      · intro i _ j _ hij
        have := withSuffix_injective base hij
        omega
    simp only [Finset.card_range] at hcard
    omega

theorem findSuffix_some_spec (used : Finset String) (base : String) :
    ∀ (fuel k j : Nat), findSuffix used base fuel k = some j →
      k ≤ j ∧ withSuffix base j ∉ used ∧
        ∀ i, k ≤ i → i < j → withSuffix base i ∈ used := by
  intro fuel
  induction fuel with
  | zero => intro k j h; simp [findSuffix] at h
  | succ fuel ih =>
    intro k j h
    simp only [findSuffix] at h
    by_cases hmem : withSuffix base k ∈ used
    · simp only [hmem, if_true, reduceIte] at h
      obtain ⟨hle, hnot, hall⟩ := ih (k + 1) j h
      refine ⟨by omega, hnot, ?_⟩
      intro i hki hij
      rcases Nat.eq_or_lt_of_le hki with heq | hlt
      · exact heq ▸ hmem
      · exact hall i hlt hij
    · simp only [hmem, if_false, reduceIte, Option.some.injEq] at h
      subst h
      exact ⟨Nat.le_refl _, hmem, fun i hki hij => by omega⟩

theorem resolveNickname_not_mem (used : Finset String) (req : String) (h : req ∉ used) :
    resolveNickname used req = req := by
  simp [resolveNickname, h]

theorem resolveNickname_mem (used : Finset String) (req : String) (h : req ∈ used) :
    ∃ k, 2 ≤ k ∧ resolveNickname used req = withSuffix req k ∧
      withSuffix req k ∉ used ∧
      ∀ j, 2 ≤ j → j < k → withSuffix req j ∈ used := by
  have htot := findSuffix_total used req 2
  cases hfind : findSuffix used req (used.card + 1) 2 with
  | none => rw [hfind] at htot; simp at htot
  | some k =>
    obtain ⟨hle, hnot, hall⟩ := findSuffix_some_spec used req _ 2 k hfind
    refine ⟨k, hle, ?_, hnot, fun j h2 hj => hall j h2 hj⟩
    simp [resolveNickname, h, hfind]

/-- The assigned nickname is never one already in use. -/
theorem resolveNickname_fresh (used : Finset String) (req : String) :
    resolveNickname used req ∉ used := by
  by_cases h : req ∈ used
  · obtain ⟨k, _, heq, hnot, _⟩ := resolveNickname_mem used req h
    rw [heq]; exact hnot
  · rw [resolveNickname_not_mem used req h]; exact h

/-! ## Port allocator -/

theorem findAvailablePortAux_spec (bindOk : AddrFamily → Nat → Bool) :
    ∀ (attempts port : Nat),
      (∀ p, findAvailablePortAux bindOk port attempts = some p →
        port ≤ p ∧ p < port + attempts ∧ is_port_available bindOk p = true ∧
          ∀ q, port ≤ q → q < p → is_port_available bindOk q = false)
      ∧ (findAvailablePortAux bindOk port attempts = none ↔
          ∀ q, port ≤ q → q < port + attempts → is_port_available bindOk q = false) := by
  intro attempts
  induction attempts with
  | zero =>
    intro port
    constructor
    · intro p h; simp [findAvailablePortAux] at h
    · simp only [findAvailablePortAux]
      constructor
      · intro _ q hq1 hq2; omega
      · intro _; trivial
  | succ attempts ih =>
    intro port
    by_cases havail : is_port_available bindOk port = true
    · constructor
      · intro p h
        simp only [findAvailablePortAux, havail, if_true, reduceIte,
          Option.some.injEq] at h
        subst h
        exact ⟨Nat.le_refl _, by omega, havail, fun q hq1 hq2 => by omega⟩
      · simp only [findAvailablePortAux, havail, if_true, reduceIte]
        constructor
        · intro h; cases h
        · intro hall
          have := hall port (Nat.le_refl _) (by omega)
          rw [havail] at this; cases this
    · have hfalse : is_port_available bindOk port = false := by
        cases h : is_port_available bindOk port
        · rfl
        · exact absurd h havail
      constructor
      · intro p h
        simp only [findAvailablePortAux, hfalse, if_false, Bool.false_eq_true,
          reduceIte] at h
        obtain ⟨h1, h2, h3, h4⟩ := (ih (port + 1)).1 p h
        refine ⟨by omega, by omega, h3, ?_⟩
        intro q hq1 hq2
        rcases Nat.eq_or_lt_of_le hq1 with heq | hlt
        · exact heq ▸ hfalse
        · exact h4 q hlt hq2
      · simp only [findAvailablePortAux, hfalse, if_false, Bool.false_eq_true,
          reduceIte]
        rw [(ih (port + 1)).2]
        constructor
        · intro hall q hq1 hq2
          rcases Nat.eq_or_lt_of_le hq1 with heq | hlt
          · exact heq ▸ hfalse
          · exact hall q hlt (by omega)
        · intro hall q hq1 hq2
          exact hall q (by omega) (by omega)

theorem is_port_available_eq (bindOk : AddrFamily → Nat → Bool) (port : Nat) :
    is_port_available bindOk port =
      (bindOk AddrFamily.afInet port && bindOk AddrFamily.afInet6 port) := by
  simp [is_port_available, List.all]

theorem allocate_srt_port_none (bindOk : AddrFamily → Nat → Bool) (s : ServerState)
    (h : find_available_port bindOk s.nextSrtPort 100 = none) :
    allocate_srt_port bindOk s = (none, s) := by
  simp [allocate_srt_port, h]

theorem allocate_srt_port_some_pos (bindOk : AddrFamily → Nat → Bool) (s : ServerState)
    (p : Nat) (h : find_available_port bindOk s.nextSrtPort 100 = some p) (hp : p ≠ 0) :
    allocate_srt_port bindOk s = (some p, { s with nextSrtPort := p + 1 }) := by
  simp [allocate_srt_port, h, hp]

theorem allocate_srt_port_some_zero (bindOk : AddrFamily → Nat → Bool) (s : ServerState)
    (h : find_available_port bindOk s.nextSrtPort 100 = some 0) :
    allocate_srt_port bindOk s = (some 0, s) := by
  simp [allocate_srt_port, h]

/-! ## Branch lemmas for `_handle_auth` -/

theorem handle_auth_wrong_code (bindOk : AddrFamily → Nat → Bool)
    (ffmpegOk : String → Nat → Bool) (s : ServerState) (cid : String)
    (ci : ClientInfo) (code nick : String) (h : code ≠ s.verificationCode) :
    handle_auth bindOk ffmpegOk s cid ci code nick =
      { state := s, client := ci
        actions := [Action.sendTo cid (WsMsg.authFailed "验证码错误"),
                    Action.close cid] } := by
  simp [handle_auth, h]

theorem handle_auth_alloc_fail (bindOk : AddrFamily → Nat → Bool)
    (ffmpegOk : String → Nat → Bool) (s : ServerState) (cid : String)
    (ci : ClientInfo) (code nick : String) (hcode : code = s.verificationCode)
    (hfind : find_available_port bindOk s.nextSrtPort 100 = none) :
    handle_auth bindOk ffmpegOk s cid ci code nick =
      { state := s, client := ci
        actions := [Action.sendTo cid (WsMsg.errorMsg "无法分配SRT端口"),
                    Action.close cid] } := by
  have halloc := allocate_srt_port_none bindOk s hfind
  simp [handle_auth, hcode, halloc]

theorem handle_auth_relay_fail (bindOk : AddrFamily → Nat → Bool)
    (ffmpegOk : String → Nat → Bool) (s s1 : ServerState) (cid : String)
    (ci : ClientInfo) (code nick : String) (p : Nat)
    (hcode : code = s.verificationCode)
    (halloc : allocate_srt_port bindOk s = (some p, s1))
    (hff : ffmpegOk (relayName (resolveNickname s.nicknames nick) p) p = false) :
    handle_auth bindOk ffmpegOk s cid ci code nick =
      { state := s1, client := ci
        actions := [Action.tryStartRelay (relayName (resolveNickname s.nicknames nick) p) p false,
                    Action.sendTo cid (WsMsg.errorMsg "无法启动流转发服务"),
                    Action.close cid] } := by
  simp [handle_auth, hcode, halloc, hff]

theorem handle_auth_success_eq (bindOk : AddrFamily → Nat → Bool)
    (ffmpegOk : String → Nat → Bool) (s s1 : ServerState) (cid : String)
    (ci : ClientInfo) (code nick : String) (p : Nat)
    (hcode : code = s.verificationCode)
    (halloc : allocate_srt_port bindOk s = (some p, s1))
    (hff : ffmpegOk (relayName (resolveNickname s.nicknames nick) p) p = true) :
    handle_auth bindOk ffmpegOk s cid ci code nick =
      (let a := resolveNickname s.nicknames nick
       let ci1 : ClientInfo := ⟨true, some a, some p⟩
       let s2 : ServerState :=
         { s1 with clients := insertClient s1.clients cid ci1
                   nicknames := insert a s1.nicknames }
       { state := s2, client := ci1
         actions :=
           [Action.tryStartRelay (relayName a p) p true,
            Action.sendTo cid (WsMsg.authSuccess a p s.bindIp)]
           ++ broadcastSends s2 (WsMsg.joinMsg a (a ++ " 加入了放映室"))
           ++ [Action.sendTo cid (WsMsg.membersMsg (getOnlineMembers s2))]
           ++ notifyMemberUpdate s2 }) := by
  simp [handle_auth, hcode, halloc, hff]

/-! ## Claim theorems -/

/-- C6: for every starting port and attempt budget, the port allocator
probes ports in ascending order from the starting port and returns the
first port at which the test bind+listen succeeds for both the IPv4 and
the IPv6 family (a port at which either family fails is rejected), and
returns `none` exactly when the budget is exhausted without such a
port. -/
theorem find_available_port_contract (bindOk : AddrFamily → Nat → Bool)
    (startPort budget : Nat) :
    (∀ p, find_available_port bindOk startPort budget = some p →
      startPort ≤ p ∧ p < startPort + budget
      ∧ bindOk AddrFamily.afInet p = true ∧ bindOk AddrFamily.afInet6 p = true
      ∧ ∀ q, startPort ≤ q → q < p →
          bindOk AddrFamily.afInet q = false ∨ bindOk AddrFamily.afInet6 q = false)
    ∧ (find_available_port bindOk startPort budget = none ↔
        ∀ q, startPort ≤ q → q < startPort + budget →
          bindOk AddrFamily.afInet q = false ∨ bindOk AddrFamily.afInet6 q = false) := by
  have hspec := findAvailablePortAux_spec bindOk budget startPort
  have havail : ∀ q, (is_port_available bindOk q = true ↔
      bindOk AddrFamily.afInet q = true ∧ bindOk AddrFamily.afInet6 q = true) := by
    intro q
    rw [is_port_available_eq]
    exact Bool.and_eq_true_iff
  have hunavail : ∀ q, (is_port_available bindOk q = false ↔
      bindOk AddrFamily.afInet q = false ∨ bindOk AddrFamily.afInet6 q = false) := by
    intro q
    rw [is_port_available_eq]
    cases h4 : bindOk AddrFamily.afInet q <;> cases h6 : bindOk AddrFamily.afInet6 q <;> simp
  constructor
  · intro p hp
    obtain ⟨h1, h2, h3, h4⟩ := hspec.1 p hp
    obtain ⟨hi4, hi6⟩ := (havail p).mp h3
    exact ⟨h1, h2, hi4, hi6, fun q hq1 hq2 => (hunavail q).mp (h4 q hq1 hq2)⟩
  · rw [show find_available_port bindOk startPort budget =
      findAvailablePortAux bindOk startPort budget from rfl, hspec.2]
    constructor
    · intro hall q hq1 hq2
      exact (hunavail q).mp (hall q hq1 hq2)
    · intro hall q hq1 hq2
      exact (hunavail q).mpr (hall q hq1 hq2)

/-- Witness for C6: with IPv4 failing at 10001 and IPv6 failing at
10000, the first fully-available port from 10000 is 10002, and the
contract instantiates there. -/
theorem find_available_port_contract_witness :
    find_available_port witnessBindOk 10000 100 = some 10002
    ∧ (10000 ≤ 10002 ∧ 10002 < 10000 + 100
      ∧ witnessBindOk AddrFamily.afInet 10002 = true
      ∧ witnessBindOk AddrFamily.afInet6 10002 = true
      ∧ ∀ q, 10000 ≤ q → q < 10002 →
          witnessBindOk AddrFamily.afInet q = false
          ∨ witnessBindOk AddrFamily.afInet6 q = false) :=
  ⟨by decide, (find_available_port_contract witnessBindOk 10000 100).1 10002 (by decide)⟩

/-- C9: any message of a type other than `auth` received on a connection
that is not yet authenticated is answered with an
authentication-required error; the message is dropped, the state is
unchanged and the connection is not closed (the reply is the only
action). -/
theorem unauthenticated_message_rejected (bindOk : AddrFamily → Nat → Bool)
    (ffmpegOk : String → Nat → Bool) (now : String) (s : ServerState)
    (cid : String) (ci : ClientInfo) (m : InMsg)
    (hauth : ci.authenticated = false) (htype : msgType m ≠ "auth") :
    handle_message bindOk ffmpegOk now s cid ci m =
      { state := s, client := ci
        actions := [Action.sendTo cid (WsMsg.errorMsg "请先进行身份验证")] } := by
  cases m with
  | auth code nick => exact absurd rfl htype
  | chat msg => simp [handle_message, hauth]
  | heartbeat => simp [handle_message, hauth]
  | other t => simp [handle_message, hauth]

/-- Witness for C9: a chat message on a fresh unauthenticated connection
is answered with the authentication-required error and nothing else. -/
theorem unauthenticated_message_rejected_witness :
    newClientInfo.authenticated = false ∧ msgType (InMsg.chat "hi") ≠ "auth"
    ∧ handle_message (fun _ _ => true) (fun _ _ => true) "t0"
        (initServerState "114514" "Host" "0.0.0.0" 10000) "c1" newClientInfo
        (InMsg.chat "hi") =
      { state := initServerState "114514" "Host" "0.0.0.0" 10000
        client := newClientInfo
        actions := [Action.sendTo "c1" (WsMsg.errorMsg "请先进行身份验证")] } :=
  ⟨rfl, by decide,
    unauthenticated_message_rejected (fun _ _ => true) (fun _ _ => true) "t0"
      (initServerState "114514" "Host" "0.0.0.0" 10000) "c1" newClientInfo
      (InMsg.chat "hi") rfl (by decide)⟩

/-- C5: every authentication failure (wrong verification code, port
allocation failure, relay launch failure) sends the corresponding
failure/error message, closes the connection, and commits no session
state: the nickname set, the client table and the member roster are
unchanged (the first two branches change nothing at all; the relay
failure branch only advances the port cursor). -/
theorem auth_failure_commits_no_state (bindOk : AddrFamily → Nat → Bool)
    (ffmpegOk : String → Nat → Bool) (s : ServerState) (cid : String)
    (ci : ClientInfo) (code nick : String) :
    (code ≠ s.verificationCode →
      handle_auth bindOk ffmpegOk s cid ci code nick =
        { state := s, client := ci
          actions := [Action.sendTo cid (WsMsg.authFailed "验证码错误"),
                      Action.close cid] })
    ∧ (code = s.verificationCode →
       find_available_port bindOk s.nextSrtPort 100 = none →
       handle_auth bindOk ffmpegOk s cid ci code nick =
         { state := s, client := ci
           actions := [Action.sendTo cid (WsMsg.errorMsg "无法分配SRT端口"),
                       Action.close cid] })
    ∧ (∀ p, code = s.verificationCode →
       find_available_port bindOk s.nextSrtPort 100 = some p →
       ffmpegOk (relayName (resolveNickname s.nicknames nick) p) p = false →
       (handle_auth bindOk ffmpegOk s cid ci code nick).state.nicknames = s.nicknames
       ∧ (handle_auth bindOk ffmpegOk s cid ci code nick).state.clients = s.clients
       ∧ getOnlineMembers (handle_auth bindOk ffmpegOk s cid ci code nick).state =
           getOnlineMembers s
       ∧ (handle_auth bindOk ffmpegOk s cid ci code nick).actions =
           [Action.tryStartRelay (relayName (resolveNickname s.nicknames nick) p) p false,
            Action.sendTo cid (WsMsg.errorMsg "无法启动流转发服务"),
            Action.close cid]) := by
  refine ⟨fun h => handle_auth_wrong_code bindOk ffmpegOk s cid ci code nick h,
    fun hc hf => handle_auth_alloc_fail bindOk ffmpegOk s cid ci code nick hc hf,
    fun p hc hf hff => ?_⟩
  by_cases hp : p = 0
  · subst hp
    rw [handle_auth_relay_fail bindOk ffmpegOk s s cid ci code nick 0 hc
      (allocate_srt_port_some_zero bindOk s hf) hff]
    exact ⟨rfl, rfl, rfl, rfl⟩
  · rw [handle_auth_relay_fail bindOk ffmpegOk s { s with nextSrtPort := p + 1 } cid ci
      code nick p hc (allocate_srt_port_some_pos bindOk s p hf hp) hff]
    exact ⟨rfl, rfl, by simp [getOnlineMembers], rfl⟩

/-- Witness for C5: joining with a wrong code against a fresh session is
rejected with `auth_failed` plus a close, and the state is returned
untouched. -/
theorem auth_failure_commits_no_state_witness :
    ("000000" : String) ≠ (initServerState "114514" "Host" "0.0.0.0" 10000).verificationCode
    ∧ handle_auth (fun _ _ => true) (fun _ _ => true)
        (initServerState "114514" "Host" "0.0.0.0" 10000) "c1" newClientInfo
        "000000" "Saber" =
      { state := initServerState "114514" "Host" "0.0.0.0" 10000
        client := newClientInfo
        actions := [Action.sendTo "c1" (WsMsg.authFailed "验证码错误"),
                    Action.close "c1"] } :=
  ⟨by decide,
    (auth_failure_commits_no_state (fun _ _ => true) (fun _ _ => true)
      (initServerState "114514" "Host" "0.0.0.0" 10000) "c1" newClientInfo
      "000000" "Saber").1 (by decide)⟩

/-- C10: disconnect cleanup for a connection that never authenticated is
a no-op: an id absent from the client table leaves the table, the
nickname set, the port cursor untouched and emits no action at all; and
a connection whose handling never reached authenticated state is indeed
absent from the table (no failing auth branch inserts it). -/
theorem cleanup_unauthenticated_noop :
    (∀ (s : ServerState) (cid : String), lookupClient s.clients cid = none →
      cleanup_client s cid = (s, []))
    ∧ (∀ (bindOk : AddrFamily → Nat → Bool) (ffmpegOk : String → Nat → Bool)
        (now : String) (s : ServerState) (cid : String) (ci : ClientInfo) (m : InMsg),
        ci.authenticated = false →
        (handle_message bindOk ffmpegOk now s cid ci m).client.authenticated = false →
        (handle_message bindOk ffmpegOk now s cid ci m).state.clients = s.clients
        ∧ (handle_message bindOk ffmpegOk now s cid ci m).state.nicknames = s.nicknames) := by
  constructor
  · intro s cid h
    simp [cleanup_client, h]
  · intro bindOk ffmpegOk now s cid ci m hauth hstill
    cases m with
    | chat msg => simp [handle_message, hauth]
    | heartbeat => simp [handle_message, hauth]
    | other t => simp [handle_message, hauth]
    | auth code nick =>
      simp only [handle_message, hauth, reduceIte] at hstill ⊢
      by_cases hcode : code = s.verificationCode
      · cases hfind : find_available_port bindOk s.nextSrtPort 100 with
        | none =>
          rw [handle_auth_alloc_fail bindOk ffmpegOk s cid ci code nick hcode hfind]
          exact ⟨rfl, rfl⟩
        | some p =>
          cases hff : ffmpegOk (relayName (resolveNickname s.nicknames nick) p) p with
          | false =>
            by_cases hp : p = 0
            · subst hp
              rw [handle_auth_relay_fail bindOk ffmpegOk s s cid ci code nick 0 hcode
                (allocate_srt_port_some_zero bindOk s hfind) hff]
              exact ⟨rfl, rfl⟩
            · rw [handle_auth_relay_fail bindOk ffmpegOk s { s with nextSrtPort := p + 1 }
                cid ci code nick p hcode (allocate_srt_port_some_pos bindOk s p hfind hp) hff]
              exact ⟨rfl, rfl⟩
          | true =>
            by_cases hp : p = 0
            · subst hp
              rw [handle_auth_success_eq bindOk ffmpegOk s s cid ci code nick 0 hcode
                (allocate_srt_port_some_zero bindOk s hfind) hff] at hstill
              simp at hstill
            · rw [handle_auth_success_eq bindOk ffmpegOk s { s with nextSrtPort := p + 1 }
                cid ci code nick p hcode (allocate_srt_port_some_pos bindOk s p hfind hp) hff]
                at hstill
              simp at hstill
      · rw [handle_auth_wrong_code bindOk ffmpegOk s cid ci code nick hcode]
        exact ⟨rfl, rfl⟩

/-- Witness for C10: cleaning up an id that never made it into the table
of a fresh session changes nothing and emits nothing. -/
theorem cleanup_unauthenticated_noop_witness :
    lookupClient (initServerState "114514" "Host" "0.0.0.0" 10000).clients "c1" = none
    ∧ cleanup_client (initServerState "114514" "Host" "0.0.0.0" 10000) "c1" =
        (initServerState "114514" "Host" "0.0.0.0" 10000, []) :=
  ⟨rfl, cleanup_unauthenticated_noop.1 (initServerState "114514" "Host" "0.0.0.0" 10000)
    "c1" rfl⟩

/-- C7: stopping a tracked process sends the graceful signal, force-kills
only when the graceful wait times out, removes the tracking record on
both paths and reports success; stopping an untracked name fails and
changes nothing. -/
theorem stop_process_contract (isWindows : Bool) (st : PMState) (name : String)
    (timeout : Nat) (outcome : StopOutcome) (hnodup : st.processes.Nodup) :
    (name ∉ st.processes →
      stop_process isWindows st name timeout outcome = (false, st, []))
    ∧ (name ∈ st.processes →
      (stop_process isWindows st name timeout outcome).1 = true
      ∧ name ∉ (stop_process isWindows st name timeout outcome).2.1.processes
      ∧ (stop_process isWindows st name timeout outcome).2.1.processes =
          st.processes.erase name
      ∧ (stop_process isWindows st name timeout outcome).2.1.threads =
          st.threads.erase name
      ∧ (stop_process isWindows st name timeout outcome).2.2 =
          (if isWindows then [ProcSignal.ctrlBreakSig] else [ProcSignal.terminateSig])
          ++ (if outcome = StopOutcome.killedAfterTimeout then [ProcSignal.killSig]
              else [])) := by
  constructor
  · intro h
    simp [stop_process, h]
  · intro h
    refine ⟨by simp [stop_process, h], ?_, by simp [stop_process, h],
      by simp [stop_process, h], ?_⟩
    · simp only [stop_process, h, if_true, reduceIte]
      intro hmem
      exact ((List.Nodup.mem_erase_iff hnodup).mp hmem).1 rfl
    · cases outcome <;> simp [stop_process, h]

/-- Witness for C7: force-kill path on a single tracked relay process on
a non-Windows host. -/
theorem stop_process_contract_witness :
    ("relay_1" ∈ (PMState.mk ["relay_1"] ["relay_1"]).processes)
    ∧ (stop_process false (PMState.mk ["relay_1"] ["relay_1"]) "relay_1" 5
        StopOutcome.killedAfterTimeout).1 = true
    ∧ "relay_1" ∉ (stop_process false (PMState.mk ["relay_1"] ["relay_1"]) "relay_1" 5
        StopOutcome.killedAfterTimeout).2.1.processes
    ∧ (stop_process false (PMState.mk ["relay_1"] ["relay_1"]) "relay_1" 5
        StopOutcome.killedAfterTimeout).2.2 =
        [ProcSignal.terminateSig, ProcSignal.killSig] := by
  have h := (stop_process_contract false (PMState.mk ["relay_1"] ["relay_1"]) "relay_1" 5
    StopOutcome.killedAfterTimeout (by decide)).2 (by decide)
  exact ⟨by decide, h.1, h.2.1, by decide⟩

/-! ## All-available runs of join requests -/

theorem find_available_port_allTrue (startPort : Nat) :
    find_available_port (fun _ _ => true) startPort 100 = some startPort := rfl

/-- Under the all-available bind oracle, allocation returns the cursor
itself; the post-allocation state only (possibly) differs in the cursor
field. -/
theorem allocate_srt_port_allTrue (s : ServerState) :
    ∃ s1, allocate_srt_port (fun _ _ => true) s = (some s.nextSrtPort, s1)
      ∧ s1.nicknames = s.nicknames ∧ s1.clients = s.clients
      ∧ s1.verificationCode = s.verificationCode ∧ s1.bindIp = s.bindIp := by
  by_cases hp : s.nextSrtPort = 0
  · refine ⟨s, ?_, rfl, rfl, rfl, rfl⟩
    have hfind : find_available_port (fun _ _ => true) s.nextSrtPort 100 = some 0 := by
      rw [find_available_port_allTrue s.nextSrtPort, hp]
    rw [hp]
    exact allocate_srt_port_some_zero _ s hfind
  · exact ⟨{ s with nextSrtPort := s.nextSrtPort + 1 },
      allocate_srt_port_some_pos _ s s.nextSrtPort
        (find_available_port_allTrue s.nextSrtPort) hp, rfl, rfl, rfl, rfl⟩

theorem handle_auth_allTrue_nicknames (s : ServerState) (cid : String) (ci : ClientInfo)
    (code nick : String) (hcode : code = s.verificationCode) :
    (handle_auth (fun _ _ => true) (fun _ _ => true) s cid ci code nick).state.nicknames =
      insert (resolveNickname s.nicknames nick) s.nicknames := by
  obtain ⟨s1, halloc, hn, _, _, _⟩ := allocate_srt_port_allTrue s
  rw [handle_auth_success_eq (fun _ _ => true) (fun _ _ => true) s s1 cid ci code nick
    s.nextSrtPort hcode halloc rfl]
  simp [hn]

theorem handle_auth_allTrue_verificationCode (s : ServerState) (cid : String)
    (ci : ClientInfo) (code nick : String) (hcode : code = s.verificationCode) :
    (handle_auth (fun _ _ => true) (fun _ _ => true)
        s cid ci code nick).state.verificationCode = s.verificationCode := by
  obtain ⟨s1, halloc, _, _, hv, _⟩ := allocate_srt_port_allTrue s
  rw [handle_auth_success_eq (fun _ _ => true) (fun _ _ => true) s s1 cid ci code nick
    s.nextSrtPort hcode halloc rfl]
  simpa using hv

theorem replyAuthSuccess_allTrue (s : ServerState) (cid : String) (ci : ClientInfo)
    (code nick : String) (hcode : code = s.verificationCode) :
    replyAuthSuccess
        (handle_auth (fun _ _ => true) (fun _ _ => true) s cid ci code nick).actions cid =
      some (resolveNickname s.nicknames nick, s.nextSrtPort) := by
  obtain ⟨s1, halloc, _, _, _, _⟩ := allocate_srt_port_allTrue s
  rw [handle_auth_success_eq (fun _ _ => true) (fun _ _ => true) s s1 cid ci code nick
    s.nextSrtPort hcode halloc rfl]
  simp [replyAuthSuccess, List.findSome?_cons]

theorem runJoins_snd_length (bindOk : AddrFamily → Nat → Bool)
    (ffmpegOk : String → Nat → Bool) :
    ∀ (l : List (String × String × String)) (s : ServerState),
      ((runJoins bindOk ffmpegOk s l).2).length = l.length := by
  intro l
  induction l with
  | nil => intro s; rfl
  | cons hd tl ih =>
    intro s
    rcases hd with ⟨cid, code, nick⟩
    simp [runJoins, ih]

theorem joinStates_length (bindOk : AddrFamily → Nat → Bool)
    (ffmpegOk : String → Nat → Bool) :
    ∀ (l : List (String × String × String)) (s : ServerState),
      (joinStates bindOk ffmpegOk s l).length = l.length := by
  intro l
  induction l with
  | nil => intro s; rfl
  | cons hd tl ih =>
    intro s
    rcases hd with ⟨cid, code, nick⟩
    simp [joinStates, ih]

theorem runJoins_allTrue_reply_aux :
    ∀ (reqs : List (String × String)) (s : ServerState) (i : Nat) (cid nick : String)
      (st : ServerState) (acts : List Action),
      reqs[i]? = some (cid, nick) →
      (joinStates (fun _ _ => true) (fun _ _ => true) s
        (joinReqs s.verificationCode reqs))[i]? = some st →
      ((runJoins (fun _ _ => true) (fun _ _ => true) s
        (joinReqs s.verificationCode reqs)).2)[i]? = some acts →
      replyAuthSuccess acts cid =
        some (resolveNickname st.nicknames nick, st.nextSrtPort) := by
  intro reqs
  induction reqs with
  | nil => intro s i cid nick st acts h1; simp [joinReqs] at h1
  | cons hd tl ih =>
    intro s i cid nick st acts h1 h2 h3
    rcases hd with ⟨cid0, nick0⟩
    simp only [joinReqs, List.map_cons] at h2 h3
    cases i with
    | zero =>
      simp only [joinStates, runJoins, List.getElem?_cons_zero, Option.some.injEq]
        at h1 h2 h3
      rcases h1 with ⟨rfl, rfl⟩
      subst h2
      subst h3
      exact replyAuthSuccess_allTrue _ cid newClientInfo _ _ rfl
    | succ i =>
      simp only [List.getElem?_cons_succ] at h1
      simp only [joinStates, List.getElem?_cons_succ] at h2
      simp only [runJoins, List.getElem?_cons_succ] at h3
      have hv : (handle_auth (fun _ _ => true) (fun _ _ => true) s cid0 newClientInfo
          s.verificationCode nick0).state.verificationCode = s.verificationCode :=
        handle_auth_allTrue_verificationCode s cid0 newClientInfo s.verificationCode nick0 rfl
      have ih2 := ih (handle_auth (fun _ _ => true) (fun _ _ => true) s cid0 newClientInfo
        s.verificationCode nick0).state i cid nick st acts h1
      rw [hv] at ih2
      simp only [joinReqs] at ih2
      exact ih2 h2 h3

theorem runJoins_allTrue_card :
    ∀ (reqs : List (String × String)) (s : ServerState),
      (runJoins (fun _ _ => true) (fun _ _ => true) s
        (joinReqs s.verificationCode reqs)).1.nicknames.card =
        s.nicknames.card + reqs.length := by
  intro reqs
  induction reqs with
  | nil => intro s; simp [runJoins, joinReqs]
  | cons hd tl ih =>
    intro s
    rcases hd with ⟨cid0, nick0⟩
    simp only [joinReqs, List.map_cons, runJoins]
    have hv : (handle_auth (fun _ _ => true) (fun _ _ => true) s cid0 newClientInfo
        s.verificationCode nick0).state.verificationCode = s.verificationCode :=
      handle_auth_allTrue_verificationCode s cid0 newClientInfo s.verificationCode nick0 rfl
    have hcard : (handle_auth (fun _ _ => true) (fun _ _ => true) s cid0 newClientInfo
        s.verificationCode nick0).state.nicknames.card = s.nicknames.card + 1 := by
      rw [handle_auth_allTrue_nicknames s cid0 newClientInfo s.verificationCode nick0 rfl]
      exact Finset.card_insert_of_not_mem (resolveNickname_fresh s.nicknames nick0)
    have hrec := ih (handle_auth (fun _ _ => true) (fun _ _ => true) s cid0 newClientInfo
      s.verificationCode nick0).state
    rw [hv, hcard] at hrec
    simp only [joinReqs] at hrec
    rw [hrec]
    simp only [List.length_cons]
    omega

/-- C1: collision resolution and join bookkeeping.  A requested nickname
not in use is assigned unchanged; a requested nickname in use is
assigned the suffixed form with the smallest unused counter `k ≥ 2`; in
every run of successful joins (all ports available, relay launches
succeed, correct code), the i-th join's `auth_success` reply reports
exactly the nickname assigned against the in-use set at that moment;
and after N successful joins the in-use set holds exactly N viewer
entries beyond the host's own nickname. -/
theorem nickname_collision_resolution (code sender ip : String) (basePort : Nat)
    (reqs : List (String × String)) :
    (∀ used req, req ∉ used → resolveNickname used req = req)
    ∧ (∀ used req, req ∈ used → ∃ k, 2 ≤ k
        ∧ resolveNickname used req = withSuffix req k
        ∧ withSuffix req k ∉ used
        ∧ ∀ j, 2 ≤ j → j < k → withSuffix req j ∈ used)
    ∧ ((runJoins (fun _ _ => true) (fun _ _ => true)
          (initServerState code sender ip basePort) (joinReqs code reqs)).2).length
        = reqs.length
    ∧ (∀ i cid nick, reqs[i]? = some (cid, nick) →
        replyAuthSuccess
            (((runJoins (fun _ _ => true) (fun _ _ => true)
              (initServerState code sender ip basePort) (joinReqs code reqs)).2).getD i [])
            cid =
          some (resolveNickname
              (((joinStates (fun _ _ => true) (fun _ _ => true)
                (initServerState code sender ip basePort) (joinReqs code reqs)).getD i
                (initServerState code sender ip basePort)).nicknames) nick,
            ((joinStates (fun _ _ => true) (fun _ _ => true)
              (initServerState code sender ip basePort) (joinReqs code reqs)).getD i
              (initServerState code sender ip basePort)).nextSrtPort))
    ∧ (runJoins (fun _ _ => true) (fun _ _ => true)
        (initServerState code sender ip basePort) (joinReqs code reqs)).1.nicknames.card
        = reqs.length + 1 := by
  refine ⟨resolveNickname_not_mem, resolveNickname_mem, ?_, ?_, ?_⟩
  · rw [runJoins_snd_length]
    simp [joinReqs]
  · intro i cid nick h1
    by_cases hi : i < reqs.length
    · have hlen1 : i < (joinStates (fun _ _ => true) (fun _ _ => true)
          (initServerState code sender ip basePort) (joinReqs code reqs)).length := by
        rw [joinStates_length]
        simpa [joinReqs] using hi
      have hlen2 : i < ((runJoins (fun _ _ => true) (fun _ _ => true)
          (initServerState code sender ip basePort) (joinReqs code reqs)).2).length := by
        rw [runJoins_snd_length]
        simpa [joinReqs] using hi
      have h2 : (joinStates (fun _ _ => true) (fun _ _ => true)
          (initServerState code sender ip basePort) (joinReqs code reqs))[i]? =
          some ((joinStates (fun _ _ => true) (fun _ _ => true)
            (initServerState code sender ip basePort) (joinReqs code reqs)).getD i
            (initServerState code sender ip basePort)) := by
        rw [List.getD_eq_getElem _ _ hlen1]
        exact List.getElem?_eq_getElem hlen1
      have h3 : ((runJoins (fun _ _ => true) (fun _ _ => true)
          (initServerState code sender ip basePort) (joinReqs code reqs)).2)[i]? =
          some (((runJoins (fun _ _ => true) (fun _ _ => true)
            (initServerState code sender ip basePort) (joinReqs code reqs)).2).getD i []) := by
        rw [List.getD_eq_getElem _ _ hlen2]
        exact List.getElem?_eq_getElem hlen2
      exact runJoins_allTrue_reply_aux reqs (initServerState code sender ip basePort)
        i cid nick _ _ h1 h2 h3
    · rw [List.getElem?_eq_none (Nat.le_of_not_lt hi)] at h1
      cases h1
  · have h := runJoins_allTrue_card reqs (initServerState code sender ip basePort)
    have hv : (initServerState code sender ip basePort).verificationCode = code := rfl
    have hcard1 : (initServerState code sender ip basePort).nicknames.card = 1 :=
      Finset.card_singleton sender
    rw [hv, hcard1] at h
    rw [h]
    omega

/-- Witness for C1: host "Host", two viewers both requesting "Saber"; the
second join's reply reports the suffixed nickname "Saber_2" on the next
port, and the in-use set ends with 3 entries. -/
theorem nickname_collision_resolution_witness :
    ([("c1", "Saber"), ("c2", "Saber")] : List (String × String))[1]? = some ("c2", "Saber")
    ∧ replyAuthSuccess
        (((runJoins (fun _ _ => true) (fun _ _ => true)
          (initServerState "114514" "Host" "0.0.0.0" 10000)
          (joinReqs "114514" [("c1", "Saber"), ("c2", "Saber")])).2).getD 1 [])
        "c2" =
      some (resolveNickname
          (((joinStates (fun _ _ => true) (fun _ _ => true)
            (initServerState "114514" "Host" "0.0.0.0" 10000)
            (joinReqs "114514" [("c1", "Saber"), ("c2", "Saber")])).getD 1
            (initServerState "114514" "Host" "0.0.0.0" 10000)).nicknames) "Saber",
        ((joinStates (fun _ _ => true) (fun _ _ => true)
          (initServerState "114514" "Host" "0.0.0.0" 10000)
          (joinReqs "114514" [("c1", "Saber"), ("c2", "Saber")])).getD 1
          (initServerState "114514" "Host" "0.0.0.0" 10000)).nextSrtPort)
    ∧ resolveNickname
        (((joinStates (fun _ _ => true) (fun _ _ => true)
          (initServerState "114514" "Host" "0.0.0.0" 10000)
          (joinReqs "114514" [("c1", "Saber"), ("c2", "Saber")])).getD 1
          (initServerState "114514" "Host" "0.0.0.0" 10000)).nicknames) "Saber" = "Saber_2"
    ∧ (runJoins (fun _ _ => true) (fun _ _ => true)
        (initServerState "114514" "Host" "0.0.0.0" 10000)
        (joinReqs "114514" [("c1", "Saber"), ("c2", "Saber")])).1.nicknames.card = 3 :=
  ⟨rfl,
    (nickname_collision_resolution "114514" "Host" "0.0.0.0" 10000
      [("c1", "Saber"), ("c2", "Saber")]).2.2.2.1 1 "c2" "Saber" rfl,
    by decide,
    (nickname_collision_resolution "114514" "Host" "0.0.0.0" 10000
      [("c1", "Saber"), ("c2", "Saber")]).2.2.2.2⟩

/-! ## Port uniqueness invariants -/

theorem insertClient_of_lookup_none :
    ∀ (l : List (String × ClientInfo)) (cid : String) (ci : ClientInfo),
      lookupClient l cid = none → insertClient l cid ci = l ++ [(cid, ci)] := by
  intro l
  induction l with
  | nil => intro cid ci _; rfl
  | cons hd tl ih =>
    intro cid ci h
    rcases hd with ⟨k, v⟩
    simp only [lookupClient] at h
    by_cases hk : k = cid
    · rw [if_pos hk] at h; cases h
    · rw [if_neg hk] at h
      simp [insertClient, hk, ih cid ci h]

theorem removeClient_sublist :
    ∀ (l : List (String × ClientInfo)) (cid : String),
      List.Sublist (removeClient l cid) l := by
  intro l
  induction l with
  | nil => intro cid; exact List.Sublist.refl _
  | cons hd tl ih =>
    intro cid
    rcases hd with ⟨k, v⟩
    simp only [removeClient]
    by_cases hk : k = cid
    · rw [if_pos hk]
      exact (List.Sublist.refl tl).cons _
    · rw [if_neg hk]
      exact (ih cid).cons₂ _

theorem allocate_srt_port_fst (bindOk : AddrFamily → Nat → Bool) (s : ServerState) :
    (allocate_srt_port bindOk s).1 = find_available_port bindOk s.nextSrtPort 100 := by
  unfold allocate_srt_port
  cases find_available_port bindOk s.nextSrtPort 100 with
  | none => rfl
  | some q => by_cases hq : q ≠ 0 <;> simp [hq]

theorem allocate_srt_port_ge (bindOk : AddrFamily → Nat → Bool) (s : ServerState)
    (p : Nat) (h : (allocate_srt_port bindOk s).1 = some p) : s.nextSrtPort ≤ p := by
  rw [allocate_srt_port_fst] at h
  exact ((findAvailablePortAux_spec bindOk 100 s.nextSrtPort).1 p h).1

theorem cleanup_client_cursor (s : ServerState) (cid : String) :
    (cleanup_client s cid).1.nextSrtPort = s.nextSrtPort := by
  unfold cleanup_client
  cases lookupClient s.clients cid with
  | none => rfl
  | some ci => rfl

/-- The allocation cursor never decreases across an auth request: it is
untouched on every failure path and on a falsy (zero) allocated port,
and jumps past the allocated port otherwise. -/
theorem handle_auth_cursor_mono (bindOk : AddrFamily → Nat → Bool)
    (ffmpegOk : String → Nat → Bool) (s : ServerState) (cid : String)
    (ci : ClientInfo) (code nick : String) :
    s.nextSrtPort ≤ (handle_auth bindOk ffmpegOk s cid ci code nick).state.nextSrtPort := by
  by_cases hcode : code = s.verificationCode
  · cases hfind : find_available_port bindOk s.nextSrtPort 100 with
    | none =>
      rw [handle_auth_alloc_fail bindOk ffmpegOk s cid ci code nick hcode hfind]
    | some p =>
      have hp : s.nextSrtPort ≤ p :=
        ((findAvailablePortAux_spec bindOk 100 s.nextSrtPort).1 p hfind).1
      by_cases hp0 : p = 0
      · subst hp0
        have halloc := allocate_srt_port_some_zero bindOk s hfind
        cases hff : ffmpegOk (relayName (resolveNickname s.nicknames nick) 0) 0 with
        | false =>
          rw [handle_auth_relay_fail bindOk ffmpegOk s s cid ci code nick 0 hcode
            halloc hff]
        | true =>
          rw [handle_auth_success_eq bindOk ffmpegOk s s cid ci code nick 0 hcode
            halloc hff]
      · have halloc := allocate_srt_port_some_pos bindOk s p hfind hp0
        cases hff : ffmpegOk (relayName (resolveNickname s.nicknames nick) p) p with
        | false =>
          rw [handle_auth_relay_fail bindOk ffmpegOk s { s with nextSrtPort := p + 1 }
            cid ci code nick p hcode halloc hff]
          simp
          omega
        | true =>
          rw [handle_auth_success_eq bindOk ffmpegOk s { s with nextSrtPort := p + 1 }
            cid ci code nick p hcode halloc hff]
          simp
          omega
  · rw [handle_auth_wrong_code bindOk ffmpegOk s cid ci code nick hcode]

theorem reachable_cursor_mono (bindOk : AddrFamily → Nat → Bool)
    (ffmpegOk : String → Nat → Bool) {s t : ServerState}
    (h : Reachable bindOk ffmpegOk s t) : s.nextSrtPort ≤ t.nextSrtPort := by
  induction h with
  | refl => exact Nat.le_refl _
  | authStep cid ci code nick h hfresh ih =>
    exact Nat.le_trans ih (handle_auth_cursor_mono bindOk ffmpegOk _ cid ci code nick)
  | disconnectStep cid h ih =>
    rw [cleanup_client_cursor]
    exact ih

/-- With a positive cursor every allocated port is positive too, so the
truthiness guard always advances the cursor: an auth request leaves the
state unchanged, advances only the cursor, or additionally commits the
new client and nickname. -/
theorem handle_auth_state_characterization (bindOk : AddrFamily → Nat → Bool)
    (ffmpegOk : String → Nat → Bool) (s : ServerState) (cid : String)
    (ci : ClientInfo) (code nick : String) (hpos : 1 ≤ s.nextSrtPort) :
    (handle_auth bindOk ffmpegOk s cid ci code nick).state = s
    ∨ (∃ p, find_available_port bindOk s.nextSrtPort 100 = some p ∧ s.nextSrtPort ≤ p ∧
        ((handle_auth bindOk ffmpegOk s cid ci code nick).state =
            { s with nextSrtPort := p + 1 }
         ∨ (handle_auth bindOk ffmpegOk s cid ci code nick).state =
            { s with
              clients := insertClient s.clients cid
                ⟨true, some (resolveNickname s.nicknames nick), some p⟩
              nicknames := insert (resolveNickname s.nicknames nick) s.nicknames
              nextSrtPort := p + 1 })) := by
  by_cases hcode : code = s.verificationCode
  · cases hfind : find_available_port bindOk s.nextSrtPort 100 with
    | none =>
      left
      rw [handle_auth_alloc_fail bindOk ffmpegOk s cid ci code nick hcode hfind]
    | some p =>
      have hp : s.nextSrtPort ≤ p :=
        ((findAvailablePortAux_spec bindOk 100 s.nextSrtPort).1 p hfind).1
      have hp0 : p ≠ 0 := by omega
      have halloc := allocate_srt_port_some_pos bindOk s p hfind hp0
      right
      refine ⟨p, rfl, hp, ?_⟩
      cases hff : ffmpegOk (relayName (resolveNickname s.nicknames nick) p) p with
      | false =>
        left
        rw [handle_auth_relay_fail bindOk ffmpegOk s { s with nextSrtPort := p + 1 }
          cid ci code nick p hcode halloc hff]
      | true =>
        right
        rw [handle_auth_success_eq bindOk ffmpegOk s { s with nextSrtPort := p + 1 }
          cid ci code nick p hcode halloc hff]
  · left
    rw [handle_auth_wrong_code bindOk ffmpegOk s cid ci code nick hcode]

theorem auth_preserves_inv (bindOk : AddrFamily → Nat → Bool)
    (ffmpegOk : String → Nat → Bool) (s : ServerState) (cid : String)
    (ci : ClientInfo) (code nick : String)
    (hfresh : lookupClient s.clients cid = none) (hpos : 1 ≤ s.nextSrtPort)
    (hB : PortsBounded s) (hD : PortsDistinct s) :
    PortsBounded (handle_auth bindOk ffmpegOk s cid ci code nick).state
    ∧ PortsDistinct (handle_auth bindOk ffmpegOk s cid ci code nick).state := by
  rcases handle_auth_state_characterization bindOk ffmpegOk s cid ci code nick hpos with
    heq | ⟨p, hfind, hp, heq | heq⟩
  · rw [heq]
    exact ⟨hB, hD⟩
  · rw [heq]
    refine ⟨?_, hD⟩
    intro e he q hq
    have := hB e he q hq
    simp only
    omega
  · rw [heq]
    have hins := insertClient_of_lookup_none s.clients cid
      ⟨true, some (resolveNickname s.nicknames nick), some p⟩ hfresh
    refine ⟨?_, ?_⟩
    · intro e he q hq
      simp only [hins, List.mem_append, List.mem_singleton] at he
      simp only
      rcases he with he | he
      · have := hB e he q hq
        omega
      · subst he
        simp only at hq
        cases hq
        omega
    · unfold PortsDistinct
      simp only [hins]
      rw [List.pairwise_append]
      refine ⟨hD, List.pairwise_singleton _ _, ?_⟩
      intro e he e2 he2 q1 q2 hq1 hq2
      simp only [List.mem_singleton] at he2
      subst he2
      simp only at hq2
      cases hq2
      have := hB e he q1 hq1
      omega

theorem cleanup_preserves_inv (s : ServerState) (cid : String)
    (hB : PortsBounded s) (hD : PortsDistinct s) :
    PortsBounded (cleanup_client s cid).1
    ∧ PortsDistinct (cleanup_client s cid).1 := by
  unfold cleanup_client
  cases hlook : lookupClient s.clients cid with
  | none => exact ⟨hB, hD⟩
  | some ci =>
    refine ⟨?_, ?_⟩
    · intro e he q hq
      simp only at he
      have he2 : e ∈ s.clients := (removeClient_sublist s.clients cid).mem he
      exact hB e he2 q hq
    · exact List.Pairwise.sublist (removeClient_sublist s.clients cid) hD

theorem reachable_inv (bindOk : AddrFamily → Nat → Bool)
    (ffmpegOk : String → Nat → Bool) {s t : ServerState}
    (h : Reachable bindOk ffmpegOk s t) (hpos : 1 ≤ s.nextSrtPort)
    (hB : PortsBounded s) (hD : PortsDistinct s) :
    PortsBounded t ∧ PortsDistinct t := by
  induction h with
  | refl => exact ⟨hB, hD⟩
  | authStep cid ci code nick h hfresh ih =>
    obtain ⟨hB1, hD1⟩ := ih
    have hpos1 := Nat.le_trans hpos (reachable_cursor_mono bindOk ffmpegOk h)
    exact auth_preserves_inv bindOk ffmpegOk _ cid ci code nick hfresh hpos1 hB1 hD1
  | disconnectStep cid h ih =>
    obtain ⟨hB1, hD1⟩ := ih
    exact cleanup_preserves_inv _ cid hB1 hD1

/-- C2 (amended): for every session with a positive SRT base port (the
shipped configuration pins it to 10000), at every reachable coordinator
state no two client records hold the same stream port, so no two
connected viewers ever share a port; but a port released by a disconnect
is never again eligible for allocation in that session: the allocation
cursor never decreases along any run, every allocation returns a port at
or above the cursor, and hence a port ever held by a tracked client (in
particular one whose owner then disconnects) differs from every port
allocated later.  Positivity is needed because of the `if port:`
truthiness in `_allocate_srt_port`: at a base port of 0 the falsy port 0
would be handed out repeatedly (`base_port_zero_duplicate_ports`). -/
theorem stream_port_uniqueness :
    (∀ (bindOk : AddrFamily → Nat → Bool) (ffmpegOk : String → Nat → Bool)
      (code sender ip : String) (basePort : Nat) (t : ServerState), 1 ≤ basePort →
      Reachable bindOk ffmpegOk (initServerState code sender ip basePort) t →
      PortsDistinct t)
    ∧ (∀ (bindOk : AddrFamily → Nat → Bool) (ffmpegOk : String → Nat → Bool)
        (s t : ServerState), Reachable bindOk ffmpegOk s t →
        s.nextSrtPort ≤ t.nextSrtPort)
    ∧ (∀ (bindOk : AddrFamily → Nat → Bool) (s : ServerState) (p : Nat),
        (allocate_srt_port bindOk s).1 = some p → s.nextSrtPort ≤ p)
    ∧ (∀ (bindOk bindOk2 : AddrFamily → Nat → Bool) (ffmpegOk : String → Nat → Bool)
        (code sender ip : String) (basePort : Nat) (s t : ServerState)
        (cid : String) (ci : ClientInfo) (p q : Nat), 1 ≤ basePort →
        Reachable bindOk ffmpegOk (initServerState code sender ip basePort) s →
        (cid, ci) ∈ s.clients → ci.srtPort = some p →
        Reachable bindOk ffmpegOk s t →
        (allocate_srt_port bindOk2 t).1 = some q → p ≠ q) := by
  have hBinit : ∀ (code sender ip : String) (basePort : Nat),
      PortsBounded (initServerState code sender ip basePort) := by
    intro code sender ip basePort e he
    simp [initServerState] at he
  have hDinit : ∀ (code sender ip : String) (basePort : Nat),
      PortsDistinct (initServerState code sender ip basePort) :=
    fun code sender ip basePort => List.Pairwise.nil
  refine ⟨?_, ?_, ?_, ?_⟩
  · intro bindOk ffmpegOk code sender ip basePort t hpos h
    exact (reachable_inv bindOk ffmpegOk h hpos (hBinit code sender ip basePort)
      (hDinit code sender ip basePort)).2
  · intro bindOk ffmpegOk s t h
    exact reachable_cursor_mono bindOk ffmpegOk h
  · exact fun bindOk s p h => allocate_srt_port_ge bindOk s p h
  · intro bindOk bindOk2 ffmpegOk code sender ip basePort s t cid ci p q
      hpos hreach hmem hport hstep halloc
    have hB : PortsBounded s :=
      (reachable_inv bindOk ffmpegOk hreach hpos (hBinit code sender ip basePort)
        (hDinit code sender ip basePort)).1
    have hplt : p < s.nextSrtPort := hB (cid, ci) hmem p hport
    have hmono : s.nextSrtPort ≤ t.nextSrtPort :=
      reachable_cursor_mono bindOk ffmpegOk hstep
    have hq : t.nextSrtPort ≤ q := allocate_srt_port_ge bindOk2 t q halloc
    omega

/-- Counterexample to C2 as stated: viewer "c1" joins and is assigned
port 10000; it disconnects, its relay is stopped and the OS port probes
available again, yet the next allocation (with every port available)
returns 10001 — the released port is not eligible again, because the
cursor has moved past it. -/
theorem released_port_not_reallocated :
    (handle_auth (fun _ _ => true) (fun _ _ => true)
      (initServerState "114514" "Host" "0.0.0.0" 10000) "c1" newClientInfo
      "114514" "Saber").client.srtPort = some 10000
    ∧ lookupClient ((cleanup_client (handle_auth (fun _ _ => true) (fun _ _ => true)
        (initServerState "114514" "Host" "0.0.0.0" 10000) "c1" newClientInfo
        "114514" "Saber").state "c1").1).clients "c1" = none
    ∧ is_port_available (fun _ _ => true) 10000 = true
    ∧ (allocate_srt_port (fun _ _ => true)
        ((cleanup_client (handle_auth (fun _ _ => true) (fun _ _ => true)
          (initServerState "114514" "Host" "0.0.0.0" 10000) "c1" newClientInfo
          "114514" "Saber").state "c1").1)).1 = some 10001 := by
  decide

/-- Witness for C2 (amended): the single-join state at the shipped base
port 10000 is reachable and port-distinct, and the port 10000 held by
"c1" there differs from the port allocated after "c1" disconnects. -/
theorem stream_port_uniqueness_witness :
    PortsDistinct (handle_auth (fun _ _ => true) (fun _ _ => true)
      (initServerState "114514" "Host" "0.0.0.0" 10000) "c1" newClientInfo
      "114514" "Saber").state
    ∧ (10000 : Nat) ≠ 10001 := by
  constructor
  · exact stream_port_uniqueness.1 (fun _ _ => true) (fun _ _ => true)
      "114514" "Host" "0.0.0.0" 10000 _ (by decide)
      (Reachable.authStep "c1" newClientInfo "114514" "Saber"
        (Reachable.refl _) rfl)
  · exact stream_port_uniqueness.2.2.2 (fun _ _ => true) (fun _ _ => true)
      (fun _ _ => true) "114514" "Host" "0.0.0.0" 10000 _ _ "c1"
      ⟨true, some "Saber", some 10000⟩ 10000 10001 (by decide)
      (Reachable.authStep "c1" newClientInfo "114514" "Saber"
        (Reachable.refl _) rfl)
      (by decide) rfl
      (Reachable.disconnectStep "c1" (Reachable.refl _))
      (by decide)

/-- Consequence of the `if port:` truthiness in `_allocate_srt_port`: at
a base port of 0 (never the shipped configuration, which pins the base
port to 10000) with every bind probe succeeding, the falsy port 0 is
assigned to two viewers in a row and the cursor never moves; this is why
the port-uniqueness statements assume a positive base port. -/
theorem base_port_zero_duplicate_ports :
    (handle_auth (fun _ _ => true) (fun _ _ => true)
      (initServerState "114514" "Host" "0.0.0.0" 0) "c1" newClientInfo
      "114514" "Saber").client.srtPort = some 0
    ∧ (handle_auth (fun _ _ => true) (fun _ _ => true)
        (handle_auth (fun _ _ => true) (fun _ _ => true)
          (initServerState "114514" "Host" "0.0.0.0" 0) "c1" newClientInfo
          "114514" "Saber").state "c2" newClientInfo "114514" "Archer").client.srtPort =
      some 0 := by
  decide

/-! ## Fan-out lemmas -/

theorem lookupClient_mem :
    ∀ (l : List (String × ClientInfo)) (cid : String) (ci : ClientInfo),
      lookupClient l cid = some ci → (cid, ci) ∈ l := by
  intro l
  induction l with
  | nil => intro cid ci h; simp [lookupClient] at h
  | cons hd tl ih =>
    intro cid ci h
    rcases hd with ⟨k, v⟩
    simp only [lookupClient] at h
    by_cases hk : k = cid
    · subst hk
      rw [if_pos rfl] at h
      cases h
      exact List.mem_cons_self _ _
    · rw [if_neg hk] at h
      exact List.mem_cons_of_mem _ (ih cid ci h)

theorem mem_unique_of_nodup_keys :
    ∀ (l : List (String × ClientInfo)), (l.map Prod.fst).Nodup →
      ∀ a b, a ∈ l → b ∈ l → a.1 = b.1 → a = b := by
  intro l
  induction l with
  | nil => intro _ a b ha; simp at ha
  | cons hd tl ih =>
    intro hnd a b ha hb hab
    simp only [List.map_cons, List.nodup_cons] at hnd
    rcases List.mem_cons.mp ha with rfl | ha2
    · rcases List.mem_cons.mp hb with rfl | hb2
      · rfl
      · exact absurd (List.mem_map.mpr ⟨b, hb2, hab.symm⟩) hnd.1
    · rcases List.mem_cons.mp hb with rfl | hb2
      · exact absurd (List.mem_map.mpr ⟨a, ha2, hab⟩) hnd.1
      · exact ih hnd.2 a b ha2 hb2 hab

theorem filterMap_targets_eq (l : List (String × ClientInfo)) :
    l.filterMap (fun ic => if ic.2.authenticated then some ic.1 else none) =
      (l.filter (fun ic => ic.2.authenticated)).map Prod.fst := by
  induction l with
  | nil => rfl
  | cons hd tl ih => cases h : hd.2.authenticated <;> simp [h, ih]

theorem broadcastTargets_eq (s : ServerState) :
    broadcastTargets s = (s.clients.filter (fun ic => ic.2.authenticated)).map Prod.fst :=
  filterMap_targets_eq s.clients

theorem broadcastTargets_nodup (s : ServerState)
    (hkeys : (s.clients.map Prod.fst).Nodup) : (broadcastTargets s).Nodup := by
  rw [broadcastTargets_eq]
  exact List.Nodup.sublist (List.Sublist.map Prod.fst (List.filter_sublist s.clients)) hkeys

theorem mem_broadcastTargets (s : ServerState) (cid : String) (ci : ClientInfo)
    (hmem : (cid, ci) ∈ s.clients) (hauth : ci.authenticated = true) :
    cid ∈ broadcastTargets s := by
  rw [broadcastTargets_eq]
  exact List.mem_map.mpr ⟨(cid, ci), List.mem_filter.mpr ⟨hmem, by simp [hauth]⟩, rfl⟩

theorem not_mem_broadcastTargets (s : ServerState) (cid : String) (ci : ClientInfo)
    (hkeys : (s.clients.map Prod.fst).Nodup)
    (hmem : (cid, ci) ∈ s.clients) (hauth : ci.authenticated = false) :
    cid ∉ broadcastTargets s := by
  rw [broadcastTargets_eq]
  intro hin
  obtain ⟨e, hef, hfst⟩ := List.mem_map.mp hin
  have hel : e ∈ s.clients := (List.mem_filter.mp hef).1
  have heauth : e.2.authenticated = true := by
    have := (List.mem_filter.mp hef).2
    simpa using this
  have : e = (cid, ci) := mem_unique_of_nodup_keys s.clients hkeys e (cid, ci) hel hmem hfst
  rw [this] at heauth
  simp only at heauth
  rw [hauth] at heauth
  cases heauth

theorem sendCount_broadcastSends (s : ServerState) (m : WsMsg) (x : String) :
    sendCount (broadcastSends s m) x = (broadcastTargets s).count x := by
  unfold sendCount broadcastSends
  rw [List.countP_map]
  rfl

theorem sendCount_append (l1 l2 : List Action) (x : String) :
    sendCount (l1 ++ l2) x = sendCount l1 x + sendCount l2 x := by
  simp [sendCount, List.countP_append]

theorem sendCount_cons (a : Action) (rest : List Action) (x : String) :
    sendCount (a :: rest) x = sendCount rest x +
      (match a with
       | Action.sendTo c _ => if c == x then 1 else 0
       | _ => 0) := by
  cases a <;> simp [sendCount, List.countP_cons]

theorem deliveredCount_cons (sendOk : String → Bool) (a : Action) (rest : List Action)
    (x : String) :
    deliveredCount sendOk (a :: rest) x = deliveredCount sendOk rest x +
      (match a with
       | Action.sendTo c _ => if (c == x) && sendOk c then 1 else 0
       | _ => 0) := by
  cases a <;> simp [deliveredCount, List.countP_cons]

theorem deliveredCount_split (sendOk : String → Bool) (acts : List Action) (x : String) :
    deliveredCount sendOk acts x = if sendOk x then sendCount acts x else 0 := by
  induction acts with
  | nil => cases h : sendOk x <;> simp [deliveredCount, sendCount]
  | cons a rest ih =>
    rw [deliveredCount_cons, sendCount_cons]
    cases a with
    | sendTo c m =>
      by_cases hc : c = x
      · subst hc
        cases h : sendOk c <;> simp [h] at ih ⊢ <;> omega
      · have hbeq : (c == x) = false := by simp [hc]
        simp only [hbeq]
        cases h : sendOk x <;> simp [h] at ih ⊢ <;> omega
    | close c => cases h : sendOk x <;> simp [h] at ih ⊢ <;> omega
    | tryStartRelay n p ok => cases h : sendOk x <;> simp [h] at ih ⊢ <;> omega
    | stopRelay n => cases h : sendOk x <;> simp [h] at ih ⊢ <;> omega
    | notifyMessage n msg => cases h : sendOk x <;> simp [h] at ih ⊢ <;> omega
    | notifyMembers ms => cases h : sendOk x <;> simp [h] at ih ⊢ <;> omega

/-- C8: a chat message from a tracked sender is fanned out exactly once
to every authenticated connection (including exactly one copy back to
the sender), carrying exactly the sender's resolved nickname, the
message text and the timestamp; unauthenticated connection ids receive
nothing; and per-recipient delivery is independent: under any pattern of
per-recipient send failures, each authenticated recipient receives its
copy iff its own send succeeds. -/
theorem chat_fanout_exactly_once (now : String) (s : ServerState) (cid : String)
    (ci : ClientInfo) (message : String)
    (hkeys : (s.clients.map Prod.fst).Nodup)
    (hlookup : lookupClient s.clients cid = some ci) :
    (∀ e ∈ s.clients, e.2.authenticated = true →
      sendCount (handle_chat now s cid message) e.1 = 1
      ∧ Action.sendTo e.1 (WsMsg.chat ci.nickname message now) ∈
          handle_chat now s cid message)
    ∧ (∀ e ∈ s.clients, e.2.authenticated = false →
        sendCount (handle_chat now s cid message) e.1 = 0)
    ∧ (ci.authenticated = true → sendCount (handle_chat now s cid message) cid = 1)
    ∧ (∀ a ∈ handle_chat now s cid message, ∀ c mg, a = Action.sendTo c mg →
        mg = WsMsg.chat ci.nickname message now)
    ∧ (∀ sendOk : String → Bool, ∀ e ∈ s.clients, e.2.authenticated = true →
        deliveredCount sendOk (handle_chat now s cid message) e.1 =
          if sendOk e.1 then 1 else 0) := by
  have hch : handle_chat now s cid message =
      broadcastSends s (WsMsg.chat ci.nickname message now)
      ++ [Action.notifyMessage ci.nickname message] := by
    simp [handle_chat, hlookup]
  have hcount : ∀ x, sendCount (handle_chat now s cid message) x =
      (broadcastTargets s).count x := by
    intro x
    rw [hch, sendCount_append, sendCount_broadcastSends]
    have h0 : sendCount [Action.notifyMessage ci.nickname message] x = 0 := rfl
    rw [h0]
    omega
  have hone : ∀ e ∈ s.clients, e.2.authenticated = true →
      sendCount (handle_chat now s cid message) e.1 = 1 := by
    intro e he hauth
    rw [hcount]
    exact List.count_eq_one_of_mem (broadcastTargets_nodup s hkeys)
      (mem_broadcastTargets s e.1 e.2 he hauth)
  refine ⟨?_, ?_, ?_, ?_, ?_⟩
  · intro e he hauth
    refine ⟨hone e he hauth, ?_⟩
    rw [hch]
    refine List.mem_append.mpr (Or.inl ?_)
    exact List.mem_map.mpr ⟨e.1, mem_broadcastTargets s e.1 e.2 he hauth, rfl⟩
  · intro e he hauth
    rw [hcount]
    exact List.count_eq_zero.mpr (not_mem_broadcastTargets s e.1 e.2 hkeys he hauth)
  · intro hauth
    exact hone (cid, ci) (lookupClient_mem s.clients cid ci hlookup) hauth
  · intro a ha c mg heq
    rw [hch] at ha
    rcases List.mem_append.mp ha with h1 | h2
    · obtain ⟨t, _, hteq⟩ := List.mem_map.mp h1
      rw [heq] at hteq
      cases hteq
      rfl
    · rw [heq] at h2
      simp at h2
  · intro sendOk e he hauth
    rw [deliveredCount_split, hone e he hauth]

/-- Witness for C8: three clients, one of them unauthenticated; the
sender "Saber" broadcasts and both authenticated connections (its own
included) each count exactly one copy; if sending to "c2" fails, "c1"
still receives its copy. -/
theorem chat_fanout_exactly_once_witness :
    (let s : ServerState :=
      { verificationCode := "114514", senderNickname := some "Host",
        bindIp := "0.0.0.0",
        nicknames := {"Host", "Saber", "Archer"},
        clients := [("c1", ⟨true, some "Saber", some 10000⟩),
                    ("c2", ⟨true, some "Archer", some 10001⟩),
                    ("c3", ⟨false, none, none⟩)],
        nextSrtPort := 10002 }
    sendCount (handle_chat "t1" s "c1" "hello") "c1" = 1
    ∧ sendCount (handle_chat "t1" s "c1" "hello") "c2" = 1
    ∧ sendCount (handle_chat "t1" s "c1" "hello") "c3" = 0
    ∧ deliveredCount (fun r => r != "c2") (handle_chat "t1" s "c1" "hello") "c1" = 1) := by
  intro s
  have h := chat_fanout_exactly_once "t1" s "c1" ⟨true, some "Saber", some 10000⟩ "hello"
    (by decide) (by decide)
  refine ⟨(h.1 ("c1", ⟨true, some "Saber", some 10000⟩) (by decide) rfl).1,
    (h.1 ("c2", ⟨true, some "Archer", some 10001⟩) (by decide) rfl).1,
    h.2.1 ("c3", ⟨false, none, none⟩) (by decide) rfl, ?_⟩
  have := h.2.2.2.2 (fun r => r != "c2") ("c1", ⟨true, some "Saber", some 10000⟩)
    (by decide) rfl
  simpa using this

/-! ## Reconnect loop lemmas -/

theorem clientLoop_reconnect_step (outcome : Nat → Bool) (f : Nat) (st : WClientState)
    (idx : Nat) (h1 : st.autoReconnect = true) (h2 : st.running = true)
    (h3 : st.reconnectAttempts + 1 ≤ st.maxReconnectAttempts) :
    clientLoop outcome (f + 1) CMode.reconnectM st idx =
      clientLoop outcome f CMode.connectM
        { st with reconnectAttempts := st.reconnectAttempts + 1 } (idx + 1) := by
  simp only [clientLoop]
  rw [if_neg (by simp [h1, h2]), if_neg (by simp; omega)]

theorem clientLoop_reconnect_terminal (outcome : Nat → Bool) (f : Nat)
    (st : WClientState) (idx : Nat) (h1 : st.autoReconnect = true)
    (h2 : st.running = true)
    (h3 : st.maxReconnectAttempts < st.reconnectAttempts + 1) :
    clientLoop outcome (f + 1) CMode.reconnectM st idx =
      ({ st with reconnectAttempts := st.reconnectAttempts + 1 },
       [WEvent.terminalError]) := by
  simp only [clientLoop]
  rw [if_neg (by simp [h1, h2]), if_pos (by show st.maxReconnectAttempts < st.reconnectAttempts + 1; omega)]

theorem clientLoop_connect_fail_cont (outcome : Nat → Bool) (f : Nat)
    (st : WClientState) (idx : Nat) (hout : outcome idx = false)
    (h : st.autoReconnect = true ∧ st.reconnectAttempts < st.maxReconnectAttempts
      ∧ st.running = true) :
    clientLoop outcome (f + 1) CMode.connectM st idx =
      ((clientLoop outcome f CMode.reconnectM st idx).1,
        [WEvent.connectAttempt idx, WEvent.connectFailed idx]
          ++ (clientLoop outcome f CMode.reconnectM st idx).2) := by
  simp only [clientLoop, hout, Bool.false_eq_true, if_false, reduceIte]
  rw [if_pos h]

theorem clientLoop_connect_fail_stop (outcome : Nat → Bool) (f : Nat)
    (st : WClientState) (idx : Nat) (hout : outcome idx = false)
    (h : ¬(st.autoReconnect = true ∧ st.reconnectAttempts < st.maxReconnectAttempts
      ∧ st.running = true)) :
    clientLoop outcome (f + 1) CMode.connectM st idx =
      (st, [WEvent.connectAttempt idx, WEvent.connectFailed idx]) := by
  simp only [clientLoop, hout, Bool.false_eq_true, if_false, reduceIte]
  rw [if_neg h]

theorem clientLoop_reconnect_all_fail :
    ∀ (d : Nat) (outcome : Nat → Bool) (a idx fuel M : Nat),
      (∀ i, outcome i = false) → a + d = M → 1 ≤ d → 2 * d ≤ fuel →
      countConnects (clientLoop outcome fuel CMode.reconnectM ⟨true, true, a, M⟩ idx).2 = d
      ∧ countFailures (clientLoop outcome fuel CMode.reconnectM ⟨true, true, a, M⟩ idx).2 = d
      ∧ WEvent.terminalError ∉
          (clientLoop outcome fuel CMode.reconnectM ⟨true, true, a, M⟩ idx).2
      ∧ (clientLoop outcome fuel CMode.reconnectM ⟨true, true, a, M⟩ idx).1 =
          ⟨true, true, M, M⟩ := by
  intro d
  induction d with
  | zero => intro outcome a idx fuel M _ _ hd _; omega
  | succ d ih =>
    intro outcome a idx fuel M hfail hsum _ hfuel
    obtain ⟨f, rfl⟩ : ∃ f, fuel = f + 2 := ⟨fuel - 2, by omega⟩
    rw [show f + 2 = (f + 1) + 1 from rfl,
      clientLoop_reconnect_step outcome (f + 1) ⟨true, true, a, M⟩ idx rfl rfl
        (by simp; omega)]
    rcases Nat.eq_zero_or_pos d with hd0 | hd0
    · subst hd0
      rw [clientLoop_connect_fail_stop outcome f _ (idx + 1) (hfail (idx + 1))
        (by simp; omega)]
      have ha : a + 1 = M := by omega
      refine ⟨by simp [countConnects, List.countP_cons], by simp [countFailures, List.countP_cons],
        by simp, ?_⟩
      simp [ha]
    · rw [clientLoop_connect_fail_cont outcome f _ (idx + 1) (hfail (idx + 1))
        ⟨rfl, by simp; omega, rfl⟩]
      obtain ⟨hc, hf, hterm, hst⟩ := ih outcome (a + 1) (idx + 1) f M hfail
        (by omega) hd0 (by omega)
      refine ⟨?_, ?_, ?_, hst⟩
      · simp only [countConnects, List.countP_append] at hc ⊢
        simp only [List.countP_cons, List.countP_nil] at hc ⊢
        simp at hc ⊢
        omega
      · simp only [countFailures, List.countP_append] at hf ⊢
        simp only [List.countP_cons, List.countP_nil] at hf ⊢
        simp at hf ⊢
        omega
      · intro hmem
        rcases List.mem_append.mp hmem with hmem1 | hmem2
        · simp at hmem1
        · exact hterm hmem2

theorem clientLoop_reconnect_max_zero (outcome : Nat → Bool) (idx fuel : Nat)
    (hfuel : 1 ≤ fuel) :
    clientLoop outcome fuel CMode.reconnectM ⟨true, true, 0, 0⟩ idx =
      (⟨true, true, 1, 0⟩, [WEvent.terminalError]) := by
  obtain ⟨f, rfl⟩ : ∃ f, fuel = f + 1 := ⟨fuel - 1, by omega⟩
  exact clientLoop_reconnect_terminal outcome f ⟨true, true, 0, 0⟩ idx rfl rfl
    (by simp)

/-- Counterexample to C4 as stated: with the configured default of 5
reconnect attempts, a client whose established connection drops and
whose reconnection attempts all fail stops after exactly 5 attempts —
but the dedicated terminal connection error is never signalled: the
guard `reconnect_attempts < max_reconnect_attempts` in `connect` stops
the loop before `_try_reconnect` can reach its
terminal-error branch. -/
theorem reconnect_terminal_error_never_fires :
    countConnects
        (clientLoop (fun _ => false) 12 CMode.reconnectM ⟨true, true, 0, 5⟩ 0).2 = 5
    ∧ WEvent.terminalError ∉
        (clientLoop (fun _ => false) 12 CMode.reconnectM ⟨true, true, 0, 5⟩ 0).2 := by
  decide

/-- C4 (amended): reconnection after an unexpected transport failure is
bounded: with `max_reconnect_attempts = M ≥ 1` and every attempt
failing, the client makes exactly M connection attempts, signals the
per-attempt connection-failure error exactly M times, never signals the
dedicated terminal connection error, and ends with the attempt counter
saturated at M (no further attempts); the terminal error fires only when
a reconnect is entered with the counter already at the maximum, which
happens exactly in the degenerate configuration M = 0. -/
theorem bounded_reconnect_attempts (outcome : Nat → Bool) (M idx fuel : Nat)
    (hfail : ∀ i, outcome i = false) (hM : 1 ≤ M) (hfuel : 2 * M ≤ fuel) :
    countConnects (clientLoop outcome fuel CMode.reconnectM ⟨true, true, 0, M⟩ idx).2 = M
    ∧ countFailures (clientLoop outcome fuel CMode.reconnectM ⟨true, true, 0, M⟩ idx).2 = M
    ∧ WEvent.terminalError ∉
        (clientLoop outcome fuel CMode.reconnectM ⟨true, true, 0, M⟩ idx).2
    ∧ (clientLoop outcome fuel CMode.reconnectM ⟨true, true, 0, M⟩ idx).1 =
        ⟨true, true, M, M⟩
    ∧ (∀ idx2 fuel2, 1 ≤ fuel2 →
        clientLoop outcome fuel2 CMode.reconnectM ⟨true, true, 0, 0⟩ idx2 =
          (⟨true, true, 1, 0⟩, [WEvent.terminalError])) := by
  obtain ⟨hc, hf, hterm, hst⟩ :=
    clientLoop_reconnect_all_fail M outcome 0 idx fuel M hfail (by omega) hM hfuel
  exact ⟨hc, hf, hterm, hst,
    fun idx2 fuel2 h => clientLoop_reconnect_max_zero outcome idx2 fuel2 h⟩

/-- Witness for C4 (amended): the default configuration (5 attempts),
all attempts failing. -/
theorem bounded_reconnect_attempts_witness :
    (1 : Nat) ≤ 5 ∧ 2 * 5 ≤ (12 : Nat)
    ∧ countConnects
        (clientLoop (fun _ => false) 12 CMode.reconnectM ⟨true, true, 0, 5⟩ 0).2 = 5
    ∧ (clientLoop (fun _ => false) 12 CMode.reconnectM ⟨true, true, 0, 5⟩ 0).1 =
        ⟨true, true, 5, 5⟩ := by
  have h := bounded_reconnect_attempts (fun _ => false) 5 0 12 (fun _ => rfl)
    (by decide) (by decide)
  exact ⟨by decide, by decide, h.1, h.2.2.2.1⟩

/-- Counterexample to C3 as stated: a process started with
`restart_on_exit = True` and no output callbacks is watched by
`_monitor_process_exit`, whose restart block is guarded by
`exit_code != 0`; a clean exit (code 0) with no shutdown signalled is
not relaunched, while the claim requires a relaunch for any exit code. -/
theorem clean_exit_without_callbacks_not_relaunched :
    (StartCall.mk "relay" ["ffmpeg"] none false false true).restartOnExit = true
    ∧ relaunchCall (StartCall.mk "relay" ["ffmpeg"] none false false true) 0 false false =
        none :=
  ⟨rfl, rfl⟩

/-- C3 (amended): a process started with `restartOnExit = false` is never
relaunched automatically; every relaunch reuses the same name, command
and working directory; with output callbacks present, a process with
`restartOnExit = true` is relaunched after any exit (zero or nonzero exit
code) when no shutdown was signalled; without output callbacks it is
relaunched exactly when the exit code is nonzero and no shutdown was
signalled. -/
theorem auto_restart_policy (c : StartCall) (exitCode : Int) (sd1 sd2 : Bool) :
    (c.restartOnExit = false → relaunchCall c exitCode sd1 sd2 = none)
    ∧ (∀ c2, relaunchCall c exitCode sd1 sd2 = some c2 →
        c2.name = c.name ∧ c2.command = c.command ∧ c2.cwd = c.cwd)
    ∧ ((c.hasStdoutCb || c.hasStderrCb) = true → c.restartOnExit = true →
        sd1 = false → sd2 = false → relaunchCall c exitCode sd1 sd2 = some c)
    ∧ ((c.hasStdoutCb || c.hasStderrCb) = false → c.restartOnExit = true →
        (relaunchCall c exitCode sd1 sd2 ≠ none ↔
          exitCode ≠ 0 ∧ sd1 = false ∧ sd2 = false)) := by
  rcases c with ⟨nm, cmd, cw, so, se, ro⟩
  cases so <;> cases se <;> cases ro <;> cases sd1 <;> cases sd2 <;>
    simp [relaunchCall, monitorKind, monitorOutputRestart, monitorExitRestart,
      bne_iff_ne]

/-- Witness for C3 (amended): a relay process with a stderr callback and
restart enabled exits cleanly with no shutdown signalled and is
relaunched with the identical call. -/
theorem auto_restart_policy_witness :
    ((StartCall.mk "srt_in" ["ffmpeg", "-i"] none false true true).hasStdoutCb
      || (StartCall.mk "srt_in" ["ffmpeg", "-i"] none false true true).hasStderrCb) = true
    ∧ relaunchCall (StartCall.mk "srt_in" ["ffmpeg", "-i"] none false true true) 0
        false false = some (StartCall.mk "srt_in" ["ffmpeg", "-i"] none false true true) :=
  ⟨by decide,
    (auto_restart_policy (StartCall.mk "srt_in" ["ffmpeg", "-i"] none false true true)
      0 false false).2.2.1 (by decide) rfl rfl rfl⟩

end OnlineTheater
